import Mathlib

/-!
Verification of the external calendar synchronization engine of the
`schedule` repository, against its natural-language specification.

The development shallowly embeds the relevant Python code:

* `backend/services/calendar_sync_service.py`   (class `CalendarSyncService`)
* `backend/services/google_calendar_service.py` (method `analyze_recurrence_pattern`)
* `backend/services/conflict_resolution_service.py` (class `ConflictResolutionService`)

Times of day are modelled as minutes since midnight (`Nat`); the source
stores them as `"HH:MM"` / `"HH:MM:SS"` strings (zero-padded, so Python's
lexicographic string comparison coincides with chronological order) or as
`datetime.time` values.  Database rows become Lean structures, the SQLAlchemy
session becomes an explicit `SyncState` record, and each service method
becomes a state-passing function.  Python dictionary `.get` lookups of
possibly-absent keys become `Option` fields.
-/

namespace ScheduleSync

/-! ## Time-of-day strings and the sync engine's overlap test

`CalendarSyncService._time_overlaps` receives time strings.  Its inner
`parse_time` accepts ISO datetime strings (length > 8), `"HH:MM:SS"` strings
(length > 5) and `"HH:MM"` strings, after stripping a fractional-seconds
suffix; anything else (for example a bare hour such as `"13"`) raises, which
the surrounding `try` turns into `False`.  Before parsing, the 3rd and 4th
arguments — and only those — get `":00"` appended when they contain no colon,
so a bare-hour string parses there but not in the first two positions.
`TimeStr` records exactly the distinctions this code makes; the `Nat` payload
is the denoted time in minutes. -/
inductive TimeStr where
  /-- `None` or the empty string: falsy, rejected by the `not all([...])` guard. -/
  | empty : TimeStr
  /-- ISO datetime string of length > 8 (contains colons); payload is its time part. -/
  | iso (t : Nat) : TimeStr
  /-- `"HH:MM:SS"` string. -/
  | hms (t : Nat) : TimeStr
  /-- `"HH:MM"` string. -/
  | hm (t : Nat) : TimeStr
  /-- A bare hour string with no colon, such as `"13"`: `strptime "%H:%M"` fails
  on it, but appending `":00"` makes it parse as `t` minutes. -/
  | hourOnly (t : Nat) : TimeStr
  /-- A string that fails to parse whether or not `":00"` is appended. -/
  | malformed : TimeStr
  deriving DecidableEq, Repr

/-- Python truthiness of the argument (`not all([start1, end1, start2, end2])`). -/
def TimeStr.falsy : TimeStr → Bool
  | .empty => true
  | _ => false

/-- `parse_time` inside `_time_overlaps`: `.ok (some t)` when parsing yields a
time, `.error ()` when `strptime` / `fromisoformat` raises (caught by the
enclosing `try`, which returns `False`). -/
def parse_time : TimeStr → Except Unit (Option Nat)
  | .empty => .ok none
  | .iso t => .ok (some t)
  | .hms t => .ok (some t)
  | .hm t => .ok (some t)
  | .hourOnly _ => .error ()
  | .malformed => .error ()

/-- `start2 if ':' in start2 else f"{start2}:00"`: applied to the 3rd and 4th
arguments of `_time_overlaps` only.  A bare hour gains `":00"` and becomes a
parsable `"HH:MM"` string; colon-containing strings are unchanged; a string
unparsable either way stays unparsable. -/
def colonFix : TimeStr → TimeStr
  | .hourOnly t => .hm t
  | ts => ts

/-- `CalendarSyncService._time_overlaps(start1, end1, start2, end2)`. -/
def time_overlaps (start1 end1 start2 end2 : TimeStr) : Bool :=
  if start1.falsy || end1.falsy || start2.falsy || end2.falsy then false
  else
    match parse_time start1, parse_time end1,
        parse_time (colonFix start2), parse_time (colonFix end2) with
    | .ok (some s1), .ok (some e1), .ok (some s2), .ok (some e2) =>
        decide (s1 < e2) && decide (e1 > s2)
    | _, _, _, _ => false

/-- The denoted time of a `TimeStr`, ignoring its surface format. -/
def TimeStr.timeVal : TimeStr → Option Nat
  | .empty => none
  | .iso t => some t
  | .hms t => some t
  | .hm t => some t
  | .hourOnly t => some t
  | .malformed => none

/-- A colon-containing (or trivial) time string: every constructor except the
bare-hour one, which `_time_overlaps` treats asymmetrically. -/
def TimeStr.wellFormed : TimeStr → Bool
  | .hourOnly _ => false
  | _ => true

/-! ## The conflict resolver's overlap test and `merge_combine`

From `conflict_resolution_service.py`.  There the times have already been
parsed to `datetime.time` values, modelled as minutes (`Nat`). -/

/-- `ConflictResolutionService._times_overlap(start1, end1, start2, end2)`. -/
def times_overlap (start1 end1 start2 end2 : Nat) : Bool :=
  decide (start1 < end2) && decide (end1 > start2)

/-- An external event as seen by the conflict resolver (keys read by
`_merge_combine` / `_merge_sum` / `resolve_conflict`). -/
structure ResolverEvent where
  id : String
  start_time : Nat
  end_time : Nat
  summary : Option String := none
  deriving DecidableEq, Repr

/-- An internal break dict as seen by the conflict resolver. -/
structure ResolverBreak where
  start : Nat
  stop : Nat
  type : Option String := none
  reason : Option String := none
  deriving DecidableEq, Repr

/-- The `new_break` payload produced by the resolution strategies. -/
structure ResolvedBreak where
  start : Nat
  stop : Nat
  type : String
  external_event_id : String
  reason : String
  deriving DecidableEq, Repr

/-- Result of `resolve_conflict`: an action tag plus the replacement break. -/
structure Resolution where
  action : String
  new_break : ResolvedBreak
  deriving DecidableEq, Repr

/-- `ConflictResolutionService._merge_combine`: one continuous block from the
earliest start to the latest end, keeping the internal break's `type`
(`internal_break.get('type', 'break')`). -/
def merge_combine (external_event : ResolverEvent) (internal_break : ResolverBreak) :
    Resolution :=
  let new_start := min external_event.start_time internal_break.start
  let new_end := max external_event.end_time internal_break.stop
  { action := "merge"
    new_break :=
      { start := new_start
        stop := new_end
        type := internal_break.type.getD "break"
        external_event_id := external_event.id
        reason := "Combinado: " ++ external_event.summary.getD "" ++ " con descanso existente" } }

/-! ## Time blocks and `_insert_break_into_blocks` -/

/-- One entry of a `time_blocks` JSON list.  `stop` renders the source's
`end` key (`end` is reserved in Lean).  Consultation blocks generated by the
engine carry only `start`/`end`/`type`; the remaining fields default to the
absent-key values. -/
structure TimeBlock where
  start : Nat
  stop : Nat
  type : String
  external_event_id : Option String := none
  recurring_group_id : Option String := none
  existed_before_sync : Bool := false
  deriving DecidableEq, Repr

/-- `b.get('type') != 'consultation'`: the block is a break of some kind. -/
def isBreakBlock (b : TimeBlock) : Bool :=
  decide (b.type ≠ "consultation")

/-- A generated consultation (gap-fill) block. -/
def consultationBlock (s e : Nat) : TimeBlock :=
  { start := s, stop := e, type := "consultation" }

/-- Comparison key of `breaks.sort(key=lambda x: x['start'])`. -/
def startLE (a b : TimeBlock) : Prop := a.start ≤ b.start

instance : DecidableRel startLE := fun a b => Nat.decLe a.start b.start

instance : IsTotal TimeBlock startLE := ⟨fun a b => Nat.le_total a.start b.start⟩

instance : IsTrans TimeBlock startLE := ⟨fun _ _ _ h1 h2 => Nat.le_trans h1 h2⟩

/-- The gap-filling walk of `_insert_break_into_blocks`: `lastEnd` is the
running `last_end`, initially `opens_at`; after the final break a trailing
consultation block is emitted when `last_end < closes_at`. -/
def fillBlocks (closes_at : Nat) (lastEnd : Nat) : List TimeBlock → List TimeBlock
  | [] => if lastEnd < closes_at then [consultationBlock lastEnd closes_at] else []
  | b :: bs =>
      (if lastEnd < b.start then [consultationBlock lastEnd b.start] else []) ++
        b :: fillBlocks closes_at b.stop bs

/-- `CalendarSyncService._insert_break_into_blocks`: keep the non-consultation
blocks, append the new break, sort by start (Python's sort is stable, as is
`List.insertionSort`), then fill the gaps with consultation blocks bounded by
`opens_at` and `closes_at`. -/
def insert_break_into_blocks (existing_blocks : List TimeBlock) (new_break : TimeBlock)
    (opens_at closes_at : Nat) : List TimeBlock :=
  let breaks := existing_blocks.filter isBreakBlock ++ [new_break]
  fillBlocks closes_at opens_at (List.insertionSort startLE breaks)

/-- `isPartition o c l` states that `l` is a gapless, overlap-free,
start-sorted partition of the working interval `[o, c]`: the first block
starts at `o`, every block is non-degenerate and ends where the next one
starts, and the last block ends at `c`. -/
def isPartition (o c : Nat) : List TimeBlock → Bool
  | [] => o == c
  | b :: bs => b.start == o && decide (b.start < b.stop) && isPartition b.stop c bs

/-- Two blocks occupy disjoint half-open time intervals. -/
def blocksDisjoint (a b : TimeBlock) : Prop :=
  a.stop ≤ b.start ∨ b.stop ≤ a.start

instance : DecidableRel blocksDisjoint := fun _ _ => instDecidableOr

/-! ## The recurrence pattern analyzer

`GoogleCalendarService.analyze_recurrence_pattern` manipulates Python strings
(`startswith`, `replace`, `split`, substring tests).  Those operations are
embedded over `List Char` — the character sequence of the string — because
they must be executable by the kernel on concrete rules. -/

/-- Python `s.split(sep)` for a one-character separator: `"a;;b"` yields
`["a", "", "b"]` and `""` yields `[""]`. -/
def splitOnChar (sep : Char) : List Char → List (List Char)
  | [] => [[]]
  | c :: rest =>
    let r := splitOnChar sep rest
    if c = sep then [] :: r
    else
      match r with
      | [] => [[c]]
      | g :: gs => (c :: g) :: gs

/-- Python `needle in hay` prefix step: is `p` a prefix of the second list? -/
def isPrefixChars : List Char → List Char → Bool
  | [], _ => true
  | _ :: _, [] => false
  | p :: ps, c :: cs => p = c && isPrefixChars ps cs

/-- Python `needle in hay` (substring containment). -/
def containsSub (needle : List Char) : List Char → Bool
  | [] => isPrefixChars needle []
  | c :: rest => isPrefixChars needle (c :: rest) || containsSub needle rest

/-- Python `s.replace(old, new)` with `new = ""`: remove every (leftmost,
non-overlapping) occurrence of `pat`.  Fuel-driven so that it is structurally
recursive and kernel-evaluable; the fuel is the input length. -/
def removeAllAux (pat : List Char) : Nat → List Char → List Char
  | 0, l => l
  | _ + 1, [] => []
  | fuel + 1, c :: rest =>
    if isPrefixChars pat (c :: rest) && pat ≠ [] then
      removeAllAux pat fuel ((c :: rest).drop pat.length)
    else
      c :: removeAllAux pat fuel rest

/-- `rule.replace('RRULE:', '')`. -/
def removeAll (pat l : List Char) : List Char :=
  removeAllAux pat l.length l

/-- Python `part.split('=', 1)`: split at the first `'='` only. -/
def splitFirstEq : List Char → (List Char × List Char)
  | [] => ([], [])
  | c :: rest =>
    if c = '=' then ([], rest)
    else
      let r := splitFirstEq rest
      (c :: r.1, r.2)

/-- The `components` dict built from `rrule_str.split(';')`: parts containing
`'='` contribute a binding, later parts overwriting earlier ones (dict
assignment), so lookup takes the last matching binding. -/
def getComponent (rrule_str : List Char) (key : List Char) : Option (List Char) :=
  let parts := splitOnChar ';' rrule_str
  let comps := parts.filterMap fun part =>
    if containsSub ['='] part then some (splitFirstEq part) else none
  (comps.reverse.find? fun kv => kv.1 = key).map (·.2)

/-- Python `int(s)` restricted to decimal digit strings (an RFC 5545 INTERVAL
is a positive integer): `none` when `int()` would raise on a digit-free or
empty string, which the source catches, abandoning the rest of the rule. -/
def parseNatDigits (l : List Char) : Option Nat :=
  if l = [] ∨ ¬ l.all (·.isDigit) then none
  else some (l.foldl (fun acc c => acc * 10 + (c.toNat - '0'.toNat)) 0)

/-- The `RecurrencePattern` dict initialised at the top of
`analyze_recurrence_pattern`. -/
structure RecurrencePattern where
  frequency_days : Option Nat := none
  day_of_week : Option Nat := none
  pattern_type : String := "custom"
  rule : Option (List Char) := none
  deriving DecidableEq, Repr

/-- The `day_map` dict, in insertion order (`MO` first … `SU` last). -/
def day_map : List (List Char × Nat) :=
  [("MO".toList, 0), ("TU".toList, 1), ("WE".toList, 2), ("TH".toList, 3),
   ("FR".toList, 4), ("SA".toList, 5), ("SU".toList, 6)]

/-- The `BYDAY` scan: iterate `day_map` in order and return the first day
code occurring as a substring of the `BYDAY` value. -/
def findByday (byday : List Char) : Option Nat :=
  (day_map.find? fun kv => containsSub kv.1 byday).map (·.2)

/-- One iteration of the `for rule in recurrence_rules` loop.  Rules not
starting with `RRULE:` are ignored.  For an `RRULE:` rule, the `rule` field is
set first; then, if `int()` on the INTERVAL raises (caught by the `try`), the
remaining fields stay as they were; otherwise the recognised `FREQ` values
update `frequency_days` / `pattern_type`, with `BYDAY` also setting
`day_of_week` for `WEEKLY`.  An unrecognised `FREQ` updates nothing further. -/
def apply_rrule (pattern : RecurrencePattern) (rule : List Char) : RecurrencePattern :=
  if isPrefixChars "RRULE:".toList rule then
    let rrule_str := removeAll "RRULE:".toList rule
    let p1 := { pattern with rule := some rrule_str }
    match parseNatDigits ((getComponent rrule_str "INTERVAL".toList).getD "1".toList) with
    | none => p1
    | some interval =>
      let freq := (getComponent rrule_str "FREQ".toList).getD []
      if freq = "DAILY".toList then
        { p1 with frequency_days := some interval, pattern_type := "daily" }
      else if freq = "WEEKLY".toList then
        let p2 := { p1 with frequency_days := some (7 * interval),
                            pattern_type := if interval = 1 then "weekly" else "custom" }
        match getComponent rrule_str "BYDAY".toList with
        | none => p2
        | some byday =>
          match findByday byday with
          | some d => { p2 with day_of_week := some d }
          | none => p2
      else if freq = "MONTHLY".toList then
        { p1 with frequency_days := some (30 * interval), pattern_type := "monthly" }
      else if freq = "YEARLY".toList then
        { p1 with frequency_days := some (365 * interval), pattern_type := "yearly" }
      else p1
  else pattern

/-- `GoogleCalendarService.analyze_recurrence_pattern`.  The source returns a
bare `{}` for an empty rule list; every consumer reads the result with
`.get(...)`, under which `{}` is indistinguishable from the initial
all-`None` pattern returned here. -/
def analyze_recurrence_pattern (recurrence_rules : List (List Char)) : RecurrencePattern :=
  recurrence_rules.foldl apply_rrule {}

/-! ## The data model of the sync engine

Rows of the schedule store and the sync bookkeeping table
(`models/horarios.py`, `models/calendar_sync.py`), restricted to the columns
the sync service reads or writes.  Row primary keys are `Nat` (the database
generates them; `SyncState.nextId` models the generator).  Calendar dates are
absolute day numbers with `weekday = date % 7`, the epoch chosen so that
`Monday = 0` as in Python's `date.weekday()`. -/

/-- A provider event dict as consumed by `CalendarSyncService` (keys read via
`.get` become `Option` fields; `start_date` is already parsed). -/
structure ExternalEvent where
  id : String
  summary : Option String := none
  status : Option String := none
  start_date : Option Nat := none
  end_date : Option Nat := none
  start_time : Option Nat := none
  end_time : Option Nat := none
  is_recurring : Bool := false
  deriving DecidableEq, Repr

/-- A `HorarioTemplate` row (one per user and weekday). -/
structure HorarioTemplate where
  id : Nat
  user_id : String
  day_of_week : Nat
  is_active : Bool
  opens_at : Nat
  closes_at : Nat
  time_blocks : List TimeBlock := []
  has_synced_breaks : Bool := false
  deriving DecidableEq, Repr

/-- A `HorarioException` row (one per user and date).  The
`existed_before_sync` flag renders `sync_metadata['existed_before_sync']`. -/
structure HorarioException where
  id : Nat
  user_id : String
  date : Nat
  is_working_day : Bool
  opens_at : Option Nat := none
  closes_at : Option Nat := none
  time_blocks : List TimeBlock := []
  reason : Option String := none
  sync_source : Option String := none
  external_calendar_id : Option String := none
  is_synced : Bool := false
  sync_connection_id : Option String := none
  existed_before_sync : Bool := false
  deriving DecidableEq, Repr

/-- A `SyncedEvent` bookkeeping row.  `recurring_group_id` renders
`event_metadata['recurring_group_id']`. -/
structure SyncedEvent where
  id : Nat
  user_id : String
  connection_id : Option String
  external_event_id : String
  local_event_id : Nat
  local_event_type : String
  sync_direction : String
  sync_status : String
  recurring_group_id : Option String := none
  deriving DecidableEq, Repr

/-- The database session plus the service's in-memory `just_synced_ids` set.
Lists keep insertion order, matching the query order of the session. -/
structure SyncState where
  templates : List HorarioTemplate := []
  exceptions : List HorarioException := []
  syncedEvents : List SyncedEvent := []
  just_synced_ids : List String := []
  nextId : Nat := 0
  deriving DecidableEq, Repr

/-- A recurring-series group (`grouped_recurring` entry): series id, analyzed
pattern, expanded instances.  `group_data.get('pattern', {})` reads an absent
pattern as `{}`, which behaves like the all-`None` default. -/
structure RecurringGroup where
  group_id : Option String := none
  pattern : RecurrencePattern := {}
  instances : List ExternalEvent := []
  deriving DecidableEq, Repr

/-- The conflict descriptor dicts built by the detector (both the
`template_break` and the `exception_break` shape; the source renders the
break's range into a `"start - end"` string, kept here as the two numbers). -/
structure ConflictWith where
  type : String
  day_of_week : Option Nat := none
  date : Option Nat := none
  break_type : String
  break_start : Nat
  break_stop : Nat
  entity_id : Nat
  deriving DecidableEq, Repr

/-- One entry of `result['conflicts']`. -/
structure SyncConflict where
  external_event : ExternalEvent
  conflict_with : ConflictWith
  type : String
  deriving DecidableEq, Repr

/-- The per-group result dict of `_process_recurring_group` (the `synced`
record list it also carries is overwritten by the final query in
`process_external_events` and is not tracked). -/
structure GroupResult where
  synced_ids : List String := []
  conflicts : List SyncConflict := []
  has_conflict : Bool := false
  deriving DecidableEq, Repr

/-- Lift an optional parsed time into the string shape `_time_overlaps`
receives: absent/`None` is the falsy string, a present time is its
(zero-padded, colon-containing) rendering. -/
def toTimeStr : Option Nat → TimeStr
  | none => .empty
  | some t => .hm t

/-- The engine's calls `_time_overlaps(event.get('start_time'),
event.get('end_time'), block.get('start'), block.get('end'))`. -/
def eventOverlapsBlock (ev : ExternalEvent) (b : TimeBlock) : Bool :=
  time_overlaps (toTimeStr ev.start_time) (toTimeStr ev.end_time) (.hm b.start) (.hm b.stop)

/-- Update the first list element satisfying `p` (SQLAlchemy mutates the row
object returned by `.first()`). -/
def updFirst {α : Type} (p : α → Bool) (f : α → α) : List α → List α
  | [] => []
  | x :: xs => if p x then f x :: xs else x :: updFirst p f xs

/-- `CalendarSyncService._create_synced_event_record`: upsert keyed on
`(user_id, external_event_id, local_event_id)` — create a `completed` record
when none exists, otherwise refresh the existing one (status back to
`completed`, recurring group id updated when supplied). -/
def create_synced_event_record (user_id connection_id external_event_id : String)
    (local_event_id : Nat) (local_event_type sync_direction : String)
    (recurring_group_id : Option String) (s : SyncState) : SyncState :=
  let key := fun r : SyncedEvent =>
    r.user_id == user_id && r.external_event_id == external_event_id &&
      r.local_event_id == local_event_id
  match s.syncedEvents.find? key with
  | none =>
    let synced : SyncedEvent :=
      { id := s.nextId, user_id, connection_id := some connection_id,
        external_event_id, local_event_id, local_event_type, sync_direction,
        sync_status := "completed", recurring_group_id }
    { s with syncedEvents := s.syncedEvents ++ [synced], nextId := s.nextId + 1 }
  | some _ =>
    let refresh := fun r : SyncedEvent =>
      { r with sync_status := "completed",
               recurring_group_id :=
                 match recurring_group_id with
                 | some g => some g
                 | none => r.recurring_group_id }
    { s with syncedEvents := updFirst key refresh s.syncedEvents }

/-! ## The sync mapping engine -/

/-- `CalendarSyncService._sync_weekly_recurring_to_template`: map a weekly
recurring group onto the weekday template of its `day_of_week`, using the
first instance as representative.  Conflict scan skips breaks already tagged
with the instance's own `external_event_id`; the first other overlapping
break aborts with a conflict.  Otherwise, on an active template, the break is
inserted and the blocks recomputed, and a sync record is upserted.

The source raises (`AttributeError`, uncaught) when the representative lacks
`start_time` / `end_time`; that input is modelled as a no-op and excluded by
hypothesis in every theorem touching it. -/
def sync_weekly_recurring_to_template (group_data : RecurringGroup)
    (user_id connection_id : String) (s : SyncState) : GroupResult × SyncState :=
  match group_data.instances, group_data.pattern.day_of_week with
  | [], _ => ({}, s)
  | _ :: _, none => ({}, s)
  | first :: _, some day_of_week =>
    let found := s.templates.find? fun t =>
      t.user_id == user_id && t.day_of_week == day_of_week
    let (template, s1) :=
      match found with
      | some t => (t, s)
      | none =>
        let t : HorarioTemplate :=
          { id := s.nextId, user_id, day_of_week, is_active := true,
            opens_at := 540, closes_at := 1140, time_blocks := [] }
        (t, { s with templates := s.templates ++ [t], nextId := s.nextId + 1 })
    let existing_breaks := template.time_blocks.filter isBreakBlock
    match existing_breaks.find? fun eb =>
        !(eb.external_event_id == some first.id) && eventOverlapsBlock first eb with
    | some eb =>
      ({ has_conflict := true
         conflicts := [{ external_event := first
                         conflict_with :=
                           { type := "template_break", day_of_week := some day_of_week,
                             break_type := eb.type, break_start := eb.start,
                             break_stop := eb.stop, entity_id := template.id }
                         type := "recurrent" }] }, s1)
    | none =>
      if template.is_active then
        match first.start_time, first.end_time with
        | some st, some et =>
          let new_break : TimeBlock :=
            { start := st, stop := et, type := "break",
              external_event_id := some first.id,
              recurring_group_id := group_data.group_id }
          let time_blocks :=
            insert_break_into_blocks template.time_blocks new_break
              template.opens_at template.closes_at
          let tpls := updFirst (fun t => t.id == template.id)
            (fun t => { t with time_blocks := time_blocks, has_synced_breaks := true })
            s1.templates
          let s2 := { s1 with templates := tpls }
          let s3 := create_synced_event_record user_id connection_id first.id
            template.id "template" "external_to_internal" group_data.group_id s2
          ({ synced_ids := [first.id] },
           { s3 with just_synced_ids := s3.just_synced_ids ++ [first.id] })
        | _, _ => ({}, s1)
      else ({}, s1)

/-- The body of the `for instance in instances` loop of
`_sync_non_weekly_recurring_to_exceptions`.  Past occurrences and occurrences
beyond the 2-year horizon (`date.today() + timedelta(days=730)`) are skipped.
When an exception already exists for the date, only conflict detection runs —
one conflict entry per overlapping non-consultation block, with no skip of
the event's own id.  When none exists and the weekday template is active, the
template's hours and blocks are cloned, the event inserted as a break, and a
new synced exception row plus sync record created.  A missing `start_date`
would raise in the source (uncaught) and is modelled as a skip, excluded by
hypothesis where it matters. -/
def sync_non_weekly_step (today : Nat) (group_data : RecurringGroup)
    (user_id connection_id provider : String)
    (acc : GroupResult × SyncState) (inst : ExternalEvent) :
    GroupResult × SyncState :=
  let (res, s) := acc
  match inst.start_date with
  | none => (res, s)
  | some event_date =>
    if event_date < today || event_date > today + 730 then (res, s)
    else
      match s.exceptions.find? fun e =>
          e.user_id == user_id && e.date == event_date with
      | some existing =>
        let confs := (existing.time_blocks.filter fun b =>
            isBreakBlock b && eventOverlapsBlock inst b).map fun b =>
          ({ external_event := inst
             conflict_with :=
               { type := "exception_break", date := some event_date,
                 break_type := b.type, break_start := b.start,
                 break_stop := b.stop, entity_id := existing.id }
             type := "recurrent" } : SyncConflict)
        ({ res with has_conflict := res.has_conflict || !confs.isEmpty,
                    conflicts := res.conflicts ++ confs }, s)
      | none =>
        match s.templates.find? fun t =>
            t.user_id == user_id && t.day_of_week == event_date % 7 with
        | some template =>
          if template.is_active then
            match inst.start_time, inst.end_time with
            | some st, some et =>
              let new_break : TimeBlock :=
                { start := st, stop := et, type := "break",
                  external_event_id := some inst.id,
                  recurring_group_id := group_data.group_id }
              let time_blocks :=
                insert_break_into_blocks template.time_blocks new_break
                  template.opens_at template.closes_at
              let exc : HorarioException :=
                { id := s.nextId, user_id, date := event_date,
                  is_working_day := true,
                  opens_at := some template.opens_at,
                  closes_at := some template.closes_at,
                  time_blocks := time_blocks,
                  reason := some ("Evento recurrente: " ++ inst.summary.getD "Sin título"),
                  sync_source := some provider,
                  external_calendar_id := some inst.id,
                  is_synced := true,
                  sync_connection_id := some connection_id }
              let s1 := { s with exceptions := s.exceptions ++ [exc],
                                 nextId := s.nextId + 1 }
              let s2 := create_synced_event_record user_id connection_id inst.id
                exc.id "exception" "external_to_internal" group_data.group_id s1
              ({ res with synced_ids := res.synced_ids ++ [inst.id] },
               { s2 with just_synced_ids := s2.just_synced_ids ++ [inst.id] })
            | _, _ => (res, s)
          else (res, s)
        | none => (res, s)

/-- `CalendarSyncService._sync_non_weekly_recurring_to_exceptions` (the
`if not instances` early return coincides with folding over the empty list). -/
def sync_non_weekly_recurring_to_exceptions (today : Nat) (group_data : RecurringGroup)
    (user_id connection_id provider : String) (s : SyncState) :
    GroupResult × SyncState :=
  group_data.instances.foldl
    (sync_non_weekly_step today group_data user_id connection_id provider) ({}, s)

/-- `CalendarSyncService._process_recurring_group`: `not frequency_days`
(absent or zero cadence) means no auto-mapping at all; cadence `7` and every
other multiple of `7` go to the template path; any non-multiple of `7` goes
to the exception path.  `today` makes the source's `date.today()` explicit. -/
def process_recurring_group (today : Nat) (group_data : RecurringGroup)
    (user_id connection_id provider : String) (s : SyncState) :
    GroupResult × SyncState :=
  match group_data.pattern.frequency_days with
  | none => ({}, s)
  | some 0 => ({}, s)
  | some frequency_days =>
    if frequency_days == 7 then
      sync_weekly_recurring_to_template group_data user_id connection_id s
    else if frequency_days % 7 != 0 then
      sync_non_weekly_recurring_to_exceptions today group_data user_id
        connection_id provider s
    else
      sync_weekly_recurring_to_template group_data user_id connection_id s

/-! ## The conflict detector and the bucket loops -/

/-- `CalendarSyncService._should_include_event`: drop cancelled events and
auto-generated birthday placeholders.  (The source strips whitespace before
testing the summary; whitespace-only summaries are modelled as empty, which
no claim depends on.) -/
def should_include_event (event : ExternalEvent) : Bool :=
  !(event.status == some "cancelled") &&
    !(["¡Feliz cumpleaños!", "Happy Birthday!", "Birthday"].contains (event.summary.getD ""))

/-- The summary defaulting `_should_include_event` performs as a side effect
on the event dict (`event['summary'] = "Evento sin título"`). -/
def defaultSummary (event : ExternalEvent) : ExternalEvent :=
  if event.summary.getD "" = "" then { event with summary := some "Evento sin título" }
  else event

/-- `CalendarSyncService._check_conflict_with_existing`: `None` for
just-synced events and events lacking a start date or either time; otherwise
scan the date's exception first, then (for recurring events) the weekday's
active template — in both scans skipping blocks tagged with the event's own
id and returning a descriptor for the first overlapping break. -/
def check_conflict_with_existing (user_id : String) (external_event : ExternalEvent)
    (skip_event_ids : List String) (s : SyncState) : Option ConflictWith :=
  if skip_event_ids.contains external_event.id then none
  else
    match external_event.start_date with
    | none => none
    | some event_date =>
      if external_event.start_time == none || external_event.end_time == none then none
      else
        let scanBlocks := fun (blocks : List TimeBlock) =>
          blocks.find? fun b =>
            isBreakBlock b && !(b.external_event_id == some external_event.id) &&
              eventOverlapsBlock external_event b
        let excConf : Option ConflictWith :=
          match s.exceptions.find? fun e =>
              e.user_id == user_id && e.date == event_date with
          | some exception =>
            (scanBlocks exception.time_blocks).map fun (b : TimeBlock) =>
              { type := "exception_break", date := some event_date,
                break_type := b.type, break_start := b.start, break_stop := b.stop,
                entity_id := exception.id }
          | none => none
        match excConf with
        | some cfl => some cfl
        | none =>
          if external_event.is_recurring then
            match s.templates.find? fun (t : HorarioTemplate) =>
                t.user_id == user_id && t.day_of_week == event_date % 7 with
            | some template =>
              if template.is_active then
                (scanBlocks template.time_blocks).map fun (b : TimeBlock) =>
                  ({ type := "template_break", day_of_week := some (event_date % 7),
                     break_type := b.type, break_start := b.start, break_stop := b.stop,
                     entity_id := template.id } : ConflictWith)
              else none
            | none => none
          else none

/-- `CalendarSyncService._auto_sync_recurrent_event` (the fallback used when
the feed carries no grouping): insert the event as a break into its weekday's
active template and record it; `none` when anything raises (missing
`start_date` or times), matching the enclosing `try`/`except` that swallows
the error before any mutation. -/
def auto_sync_recurrent_event (user_id connection_id : String) (event : ExternalEvent)
    (s : SyncState) : Option String × SyncState :=
  match event.start_date, event.start_time, event.end_time with
  | some event_date, some st, some et =>
    match s.templates.find? fun t =>
        t.user_id == user_id && t.day_of_week == event_date % 7 with
    | some template =>
      if template.is_active then
        let new_break : TimeBlock :=
          { start := st, stop := et, type := "break",
            external_event_id := some event.id }
        let time_blocks :=
          insert_break_into_blocks template.time_blocks new_break
            template.opens_at template.closes_at
        let tpls := updFirst (fun t => t.id == template.id)
          (fun t => { t with time_blocks := time_blocks }) s.templates
        let s1 := create_synced_event_record user_id connection_id event.id
          template.id "template" "external_to_internal" none
          { s with templates := tpls }
        (some event.id, s1)
      else (none, s)
    | none => (none, s)
  | _, _, _ => (none, s)

/-- The variant of `_insert_break_into_blocks` reached with an exception's
nullable hours: a `None` bound makes the comparison against it raise, and the
function's own `except` hands back the input blocks unchanged. -/
def insert_break_opt (existing_blocks : List TimeBlock) (new_break : TimeBlock) :
    Option Nat → Option Nat → List TimeBlock
  | some o, some c => insert_break_into_blocks existing_blocks new_break o c
  | _, _ => existing_blocks

/-- `CalendarSyncService._auto_sync_special_event`: find the date's exception
or seed one from the weekday's active template, then insert the event as a
break and record it.  Missing `start_date` or times make the source raise
into its `except` and return `None`; modelled as a guard up front. -/
def auto_sync_special_event (user_id connection_id : String) (event : ExternalEvent)
    (provider : String) (s : SyncState) : Option String × SyncState :=
  match event.start_date, event.start_time, event.end_time with
  | some event_date, some st, some et =>
    let found := s.exceptions.find? fun e =>
      e.user_id == user_id && e.date == event_date
    let (excOpt, s1) :=
      match found with
      | some e => (some e, s)
      | none =>
        match s.templates.find? fun (t : HorarioTemplate) =>
            t.user_id == user_id && t.day_of_week == event_date % 7 with
        | some template =>
          if template.is_active then
            let exc : HorarioException :=
              { id := s.nextId, user_id, date := event_date, is_working_day := true,
                opens_at := some template.opens_at,
                closes_at := some template.closes_at,
                time_blocks := template.time_blocks,
                reason := some ("Evento sincronizado: " ++ event.summary.getD "Sin título"),
                sync_source := some provider,
                external_calendar_id := some event.id,
                is_synced := true,
                sync_connection_id := some connection_id }
            (some exc, { s with exceptions := s.exceptions ++ [exc],
                                nextId := s.nextId + 1 })
          else (none, s)
        | none => (none, s)
    match excOpt with
    | none => (none, s1)
    | some exception =>
      let new_break : TimeBlock :=
        { start := st, stop := et, type := "break",
          external_event_id := some event.id }
      let time_blocks :=
        insert_break_opt exception.time_blocks new_break
          exception.opens_at exception.closes_at
      let excs := updFirst (fun (e : HorarioException) => e.id == exception.id)
        (fun e => { e with time_blocks := time_blocks }) s1.exceptions
      let s2 := create_synced_event_record user_id connection_id event.id
        exception.id "exception" "external_to_internal" none
        { s1 with exceptions := excs }
      (some event.id, s2)
  | _, _, _ => (none, s)

/-- `CalendarSyncService._auto_sync_all_day_event`: one closed-day exception
for every date of the event's span that has none yet, each with its own sync
record; the event id is collected once per created exception. -/
def auto_sync_all_day_event (user_id connection_id : String) (event : ExternalEvent)
    (provider : String) (s : SyncState) : List String × SyncState :=
  match event.start_date, event.end_date with
  | some start_date, some end_date =>
    (List.range (end_date + 1 - start_date)).foldl
      (fun (acc : List String × SyncState) offset =>
        let (ids, s) := acc
        let current_date := start_date + offset
        match s.exceptions.find? fun e =>
            e.user_id == user_id && e.date == current_date with
        | some _ => (ids, s)
        | none =>
          let exc : HorarioException :=
            { id := s.nextId, user_id, date := current_date, is_working_day := false,
              reason := some ("Día completo: " ++ event.summary.getD "Sin título"),
              sync_source := some provider,
              external_calendar_id := some event.id,
              is_synced := true,
              sync_connection_id := some connection_id }
          let s1 := { s with exceptions := s.exceptions ++ [exc],
                             nextId := s.nextId + 1 }
          let s2 := create_synced_event_record user_id connection_id event.id
            exc.id "exception" "external_to_internal" none s1
          (ids ++ [event.id], s2))
      ([], s)
  | _, _ => ([], s)

/-! ## The orchestrator entry point -/

/-- The categorized feed handed to `process_external_events` (the output
shape of `GoogleCalendarService.get_categorized_events`). -/
structure CategorizedEvents where
  recurrent : List ExternalEvent := []
  special : List ExternalEvent := []
  all_day : List ExternalEvent := []
  grouped_recurring : List (String × RecurringGroup) := []
  deriving DecidableEq, Repr

/-- The result summary of `process_external_events`.  `synced_count` is the
length of the final `result['synced']`, which the source overwrites with the
query for this connection's `completed` records; the bucket lists keep the
processed events (their per-event conflict annotations live in
`conflicts`). -/
structure SyncResult where
  synced_count : Nat := 0
  conflicts : List SyncConflict := []
  recurrent : List ExternalEvent := []
  special : List ExternalEvent := []
  all_day : List ExternalEvent := []
  synced_event_ids : List String := []
  total_raw_events : Nat := 0
  filtered_events : Nat := 0
  deriving DecidableEq, Repr

/-- `CalendarSyncService.process_external_events`: grouped recurring series
first, then — only when no grouping came with the feed — the flat recurring
bucket, then special one-off events, then all-day events; finally the debug
counter and the `completed`-record count are filled in. -/
def process_external_events (user_id connection_id : String)
    (external_events : CategorizedEvents) (provider : String) (today : Nat)
    (s : SyncState) : SyncResult × SyncState :=
  let total_raw := external_events.recurrent.length + external_events.special.length +
    external_events.all_day.length
  let init : SyncResult := { total_raw_events := total_raw }
  let step1 : SyncResult × SyncState :=
    external_events.grouped_recurring.foldl
      (fun (acc : SyncResult × SyncState) gp =>
        let (res, st) := acc
        let (pr, st') := process_recurring_group today gp.2 user_id connection_id
          provider st
        ({ res with
            conflicts := res.conflicts ++ (if pr.has_conflict then pr.conflicts else []),
            synced_event_ids := res.synced_event_ids ++ pr.synced_ids,
            recurrent := res.recurrent ++ gp.2.instances }, st'))
      (init, s)
  let step2 : SyncResult × SyncState :=
    if !external_events.recurrent.isEmpty && external_events.grouped_recurring.isEmpty then
      external_events.recurrent.foldl
        (fun (acc : SyncResult × SyncState) event0 =>
          let (res, st) := acc
          if should_include_event event0 then
            let event := defaultSummary event0
            let conflict := check_conflict_with_existing user_id event
              st.just_synced_ids st
            let res1 := { res with
              recurrent := res.recurrent ++ [event],
              conflicts := res.conflicts ++
                (match conflict with
                 | some c => [{ external_event := event, conflict_with := c,
                                type := "recurrent" }]
                 | none => []) }
            match conflict with
            | some _ => (res1, st)
            | none =>
              let (sid, st') := auto_sync_recurrent_event user_id connection_id event st
              match sid with
              | some i =>
                ({ res1 with synced_event_ids := res1.synced_event_ids ++ [i] },
                 { st' with just_synced_ids := st'.just_synced_ids ++ [i] })
              | none => (res1, st')
          else (res, st))
        step1
    else step1
  let step3 : SyncResult × SyncState :=
    external_events.special.foldl
      (fun (acc : SyncResult × SyncState) event0 =>
        let (res, st) := acc
        if should_include_event event0 then
          let event := defaultSummary event0
          let conflict := check_conflict_with_existing user_id event
            st.just_synced_ids st
          let res1 := { res with
            special := res.special ++ [event],
            conflicts := res.conflicts ++
              (match conflict with
               | some c => [{ external_event := event, conflict_with := c,
                              type := "special" }]
               | none => []) }
          match conflict with
          | some _ => (res1, st)
          | none =>
            let (sid, st') := auto_sync_special_event user_id connection_id event
              provider st
            match sid with
            | some i =>
              ({ res1 with synced_event_ids := res1.synced_event_ids ++ [i] },
               { st' with just_synced_ids := st'.just_synced_ids ++ [i] })
            | none => (res1, st')
        else (res, st))
      step2
  let step4 : SyncResult × SyncState :=
    external_events.all_day.foldl
      (fun (acc : SyncResult × SyncState) event0 =>
        let (res, st) := acc
        if should_include_event event0 then
          let event := defaultSummary event0
          let (ids, st') := auto_sync_all_day_event user_id connection_id event
            provider st
          ({ res with all_day := res.all_day ++ [event],
                      synced_event_ids := res.synced_event_ids ++ ids }, st')
        else (res, st))
      step3
  let (res, st) := step4
  ({ res with
      filtered_events := res.recurrent.length + res.special.length + res.all_day.length,
      synced_count := (st.syncedEvents.filter fun r =>
        r.user_id == user_id && r.connection_id == some connection_id &&
          r.sync_status == "completed").length }, st)

/-! ## Disconnect cleanup -/

/-- A sync record picked up by the cleanup query for this user and
connection. -/
def relevantRecord (user_id connection_id : String) (r : SyncedEvent) : Bool :=
  r.user_id == user_id && r.connection_id == some connection_id

/-- An `external_to_internal` record of local type `exception` referencing
this exception id (the condition under which cleanup deletes the row). -/
def excRecordMatches (r : SyncedEvent) (eid : Nat) : Bool :=
  (r.sync_direction == "external_to_internal" && r.local_event_type == "exception") &&
    eid == r.local_event_id

/-- An `external_to_internal` record of local type `template` referencing
this template id (the condition under which cleanup strips its breaks). -/
def tplRecordMatches (r : SyncedEvent) (tid : Nat) : Bool :=
  (r.sync_direction == "external_to_internal" && r.local_event_type == "template") &&
    tid == r.local_event_id

/-- `template.time_blocks = [b for b in template.time_blocks if
b.get('external_event_id') != synced.external_event_id]` — the blocks are
only filtered, nothing is recomputed. -/
def stripBlocks (r : SyncedEvent) (t : HorarioTemplate) : HorarioTemplate :=
  { t with time_blocks := t.time_blocks.filter fun b =>
      !(b.external_event_id == some r.external_event_id) }

/-- The exception deletion of one cleanup iteration: the `'exception'`
branch deletes the first (queried) row with the record's local id. -/
def cleanupStepExc (l : List HorarioException) (r : SyncedEvent) : List HorarioException :=
  if r.sync_direction == "external_to_internal" && r.local_event_type == "exception" then
    l.eraseP fun e => e.id == r.local_event_id
  else l

/-- The template stripping of one cleanup iteration: the `'template'` branch
strips the tagged breaks out of the first (queried) row with the record's
local id. -/
def cleanupStepTpl (l : List HorarioTemplate) (r : SyncedEvent) : List HorarioTemplate :=
  if r.sync_direction == "external_to_internal" && r.local_event_type == "template" then
    updFirst (fun t => t.id == r.local_event_id) (stripBlocks r) l
  else l

/-- One iteration of the `for synced in synced_events` loop of
`cleanup_synced_events`: the `'exception'` and `'template'` branches of the
`external_to_internal` case (each a no-op on the other's component, since
the branches are mutually exclusive), then `db.delete(synced)`. -/
def cleanupStep (s : SyncState) (synced : SyncedEvent) : SyncState :=
  { s with exceptions := cleanupStepExc s.exceptions synced,
           templates := cleanupStepTpl s.templates synced,
           syncedEvents := s.syncedEvents.filter fun r => !(r.id == synced.id) }

/-- `CalendarSyncService.cleanup_synced_events` (success path): materialise
this user's and connection's sync records, then run the loop above over
them. -/
def cleanup_synced_events (user_id connection_id : String) (s : SyncState) : SyncState :=
  (s.syncedEvents.filter (relevantRecord user_id connection_id)).foldl cleanupStep s

/-- Some relevant record makes cleanup delete this exception id. -/
def cleanupRemovesExc (user_id connection_id : String) (s : SyncState) (eid : Nat) : Bool :=
  (s.syncedEvents.filter (relevantRecord user_id connection_id)).any fun r =>
    excRecordMatches r eid

/-- Some relevant record makes cleanup strip this block from this template
id. -/
def cleanupStripsBlock (user_id connection_id : String) (s : SyncState) (tid : Nat)
    (b : TimeBlock) : Bool :=
  (s.syncedEvents.filter (relevantRecord user_id connection_id)).any fun r =>
    tplRecordMatches r tid && b.external_event_id == some r.external_event_id

/-! ## Concrete fixtures for the claims -/

/-- Monday template, 09:00–19:00, initially without blocks. -/
def bugTemplate : HorarioTemplate :=
  { id := 1, user_id := "u", day_of_week := 0, is_active := true,
    opens_at := 540, closes_at := 1140, time_blocks := [] }

/-- A weekly recurring group: one instance on a Monday, 13:00–14:00. -/
def bugGroup : RecurringGroup :=
  { group_id := some "g1",
    pattern := { frequency_days := some 7, day_of_week := some 0 },
    instances := [{ id := "e1", start_date := some 0, start_time := some 780,
                    end_time := some 840, is_recurring := true }] }

/-- The unchanged feed: only the weekly group. -/
def bugFeed : CategorizedEvents := { grouped_recurring := [("g1", bugGroup)] }

/-- The initial store: the Monday template, nothing synced yet. -/
def bugState : SyncState := { templates := [bugTemplate], nextId := 10 }

/-- First sync pass over `bugFeed`. -/
def bugRun1 : SyncResult × SyncState :=
  process_external_events "u" "c" bugFeed "google" 0 bugState

/-- Second sync pass over the identical feed. -/
def bugRun2 : SyncResult × SyncState :=
  process_external_events "u" "c" bugFeed "google" 0 bugRun1.2

/-- An existing internal break 13:00–14:00. -/
def cexBreak1 : TimeBlock :=
  { start := 780, stop := 840, type := "break", external_event_id := some "x" }

/-- A new break 13:30–14:30 overlapping `cexBreak1`. -/
def cexBreak2 : TimeBlock :=
  { start := 810, stop := 870, type := "break", external_event_id := some "y" }

/-- A template whose break `x1` was inserted by sync: partitions 09:00–19:00. -/
def cexTemplate : HorarioTemplate :=
  { id := 1, user_id := "u", day_of_week := 0, is_active := true,
    opens_at := 540, closes_at := 1140,
    time_blocks := [consultationBlock 540 780,
      { start := 780, stop := 840, type := "break", external_event_id := some "x1" },
      consultationBlock 840 1140] }

/-- A user-authored exception flagged as pre-existing, which a sync pass over
a one-off event on its date nevertheless came to reference. -/
def cexException : HorarioException :=
  { id := 2, user_id := "u", date := 5, is_working_day := false,
    existed_before_sync := true }

/-- The record mapping event `x1` onto the template. -/
def cexRecordTpl : SyncedEvent :=
  { id := 0, user_id := "u", connection_id := some "c", external_event_id := "x1",
    local_event_id := 1, local_event_type := "template",
    sync_direction := "external_to_internal", sync_status := "completed" }

/-- The record mapping event `x2` onto the flagged exception. -/
def cexRecordExc : SyncedEvent :=
  { id := 1, user_id := "u", connection_id := some "c", external_event_id := "x2",
    local_event_id := 2, local_event_type := "exception",
    sync_direction := "external_to_internal", sync_status := "completed" }

/-- The store right before disconnect. -/
def cexCleanupState : SyncState :=
  { templates := [cexTemplate], exceptions := [cexException],
    syncedEvents := [cexRecordTpl, cexRecordExc], nextId := 3 }

/-- The time a string yields through `parse_time` without the `":00"` fixup:
exactly the colon-containing formats parse. -/
def okTime : TimeStr → Option Nat
  | .iso t => some t
  | .hms t => some t
  | .hm t => some t
  | _ => none

/-- A well-placed new break 15:00–16:00, disjoint from `cexBreak1`. -/
def witBreak : TimeBlock :=
  { start := 900, stop := 960, type := "break", external_event_id := some "z" }

/-- A non-weekly (every 8 days) recurring group with one future occurrence on
a Monday. -/
def witGroupNW : RecurringGroup :=
  { group_id := some "g2", pattern := { frequency_days := some 8 },
    instances := [{ id := "e2", start_date := some 7, start_time := some 600,
                    end_time := some 660, is_recurring := true }] }

/-! ## Theorems -/

/-- `_time_overlaps` in terms of the parse results: the 3rd and 4th
arguments go through the `":00"` fixup, and any parse failure or falsy
argument yields `False`. -/
theorem time_overlaps_spec (s1 e1 s2 e2 : TimeStr) :
    time_overlaps s1 e1 s2 e2 =
      match okTime s1, okTime e1, okTime (colonFix s2), okTime (colonFix e2) with
      | some a, some b, some c, some d => decide (a < d) && decide (b > c)
      | _, _, _, _ => false := by
  cases s1 <;> cases e1 <;> cases s2 <;> cases e2 <;> rfl

/-- After the fixup, every string shape parses to its denoted time. -/
theorem okTime_colonFix (ts : TimeStr) : okTime (colonFix ts) = ts.timeVal := by
  cases ts <;> rfl

/-- Without the fixup, the colon-containing shapes parse to their denoted
time. -/
theorem okTime_of_wellFormed (ts : TimeStr) (h : ts.wellFormed = true) :
    okTime ts = ts.timeVal := by
  cases ts <;> first | rfl | simp [TimeStr.wellFormed] at h

/-- In the first two argument positions a string either parses to its
denoted time or (for the bare-hour shape) fails. -/
theorem okTime_cases (ts : TimeStr) (a : Nat) (h : ts.timeVal = some a) :
    okTime ts = some a ∨ okTime ts = none := by
  cases ts <;> simp_all [TimeStr.timeVal, okTime]

/-- Claim C6: resolving with `merge_combine` always yields a single
replacement break spanning from `min(start_ext, start_int)` to
`max(end_ext, end_int)`, keeping the internal break's original type; in
particular an external break 12:30–13:30 against an internal break
13:00–14:00 yields the single break 12:30–14:00. -/
theorem merge_combine_spans_min_to_max :
    (∀ (e : ResolverEvent) (b : ResolverBreak),
      (merge_combine e b).action = "merge" ∧
      (merge_combine e b).new_break.start = min e.start_time b.start ∧
      (merge_combine e b).new_break.stop = max e.end_time b.stop ∧
      (merge_combine e b).new_break.type = b.type.getD "break") ∧
    (merge_combine { id := "ev", start_time := 750, end_time := 810 }
        { start := 780, stop := 840, type := some "break" }).new_break.start = 750 ∧
    (merge_combine { id := "ev", start_time := 750, end_time := 810 }
        { start := 780, stop := 840, type := some "break" }).new_break.stop = 840 :=
  ⟨fun _ _ => ⟨rfl, rfl, rfl, rfl⟩, by decide, by decide⟩

/-- Claim C7, counterexample: `_time_overlaps` is not symmetric.  The
bare-hour string `"13"` (780 minutes) parses only in the 3rd/4th argument
positions, where `":00"` is appended, so swapping the two ranges flips the
result from `true` to `false`. -/
theorem time_overlaps_not_symmetric :
    ¬ (∀ s1 e1 s2 e2 : TimeStr,
        time_overlaps s1 e1 s2 e2 = time_overlaps s2 e2 s1 e1) := by
  intro h
  have := h (.hourOnly 780) (.hm 900) (.hm 780) (.hm 840)
  simp [time_overlaps, parse_time, colonFix, TimeStr.falsy] at this

/-- Claim C7, amended: the resolver's `_times_overlap` is symmetric, false
whenever `end1 ≤ start2` or `end2 ≤ start1`, and true exactly when
`start1 < end2 ∧ end1 > start2`.  The engine's `_time_overlaps` satisfies
the no-overlap direction for arbitrary time strings, and is symmetric and
exactly characterized on colon-containing (`HH:MM` / `HH:MM:SS` / ISO) or
missing time strings; symmetry fails only for bare-hour strings (see the
counterexample). -/
theorem overlap_tests_amended :
    (∀ a b c d : Nat, times_overlap a b c d = (decide (a < d) && decide (b > c))) ∧
    (∀ a b c d : Nat, times_overlap a b c d = times_overlap c d a b) ∧
    (∀ a b c d : Nat, b ≤ c ∨ d ≤ a → times_overlap a b c d = false) ∧
    (∀ (s1 e1 s2 e2 : TimeStr) (a b c d : Nat),
      s1.timeVal = some a → e1.timeVal = some b → s2.timeVal = some c →
      e2.timeVal = some d → b ≤ c ∨ d ≤ a → time_overlaps s1 e1 s2 e2 = false) ∧
    (∀ s1 e1 s2 e2 : TimeStr, s1.wellFormed = true → e1.wellFormed = true →
      s2.wellFormed = true → e2.wellFormed = true →
      time_overlaps s1 e1 s2 e2 = time_overlaps s2 e2 s1 e1) ∧
    (∀ (s1 e1 s2 e2 : TimeStr) (a b c d : Nat), s1.wellFormed = true →
      e1.wellFormed = true → s2.wellFormed = true → e2.wellFormed = true →
      s1.timeVal = some a → e1.timeVal = some b → s2.timeVal = some c →
      e2.timeVal = some d →
      (time_overlaps s1 e1 s2 e2 = true ↔ a < d ∧ b > c)) := by
  refine ⟨fun _ _ _ _ => rfl, fun a b c d => Bool.and_comm _ _, ?_, ?_, ?_, ?_⟩
  · intro a b c d h
    simp only [times_overlap, Bool.and_eq_false_iff, decide_eq_false_iff_not]
    omega
  · intro s1 e1 s2 e2 a b c d h1 h2 h3 h4 h5
    rw [time_overlaps_spec, okTime_colonFix, okTime_colonFix, h3, h4]
    rcases okTime_cases s1 a h1 with h1' | h1' <;>
      rcases okTime_cases e1 b h2 with h2' | h2' <;>
        rw [h1', h2'] <;>
          simp only [Bool.and_eq_false_iff, decide_eq_false_iff_not] <;> omega
  · intro s1 e1 s2 e2 w1 w2 w3 w4
    rw [time_overlaps_spec, time_overlaps_spec, okTime_colonFix, okTime_colonFix,
      okTime_colonFix, okTime_colonFix, okTime_of_wellFormed s1 w1,
      okTime_of_wellFormed e1 w2, okTime_of_wellFormed s2 w3, okTime_of_wellFormed e2 w4]
    cases s1.timeVal <;> cases e1.timeVal <;> cases s2.timeVal <;> cases e2.timeVal <;>
      first | rfl | exact Bool.and_comm _ _
  · intro s1 e1 s2 e2 a b c d w1 w2 w3 w4 h1 h2 h3 h4
    rw [time_overlaps_spec, okTime_colonFix, okTime_colonFix,
      okTime_of_wellFormed s1 w1, okTime_of_wellFormed e1 w2, h1, h2, h3, h4]
    simp

/-- Witness for `overlap_tests_amended` at concrete ranges: the 12:30–13:30
external range against the 13:00–14:00 internal one, plus non-overlapping and
well-formed-string instances. -/
theorem overlap_tests_amended_witness :
    times_overlap 750 810 780 840 = (decide (750 < 840) && decide (810 > 780)) ∧
    times_overlap 750 780 780 840 = false ∧
    time_overlaps (.hm 750) (.hm 780) (.hms 780) (.iso 840) = false ∧
    time_overlaps (.hm 780) (.hm 840) (.hms 750) (.iso 810) =
      time_overlaps (.hms 750) (.iso 810) (.hm 780) (.hm 840) ∧
    (time_overlaps (.hm 780) (.hm 840) (.hm 750) (.hm 810) = true ↔
      780 < 810 ∧ 840 > 750) :=
  ⟨overlap_tests_amended.1 750 810 780 840,
   overlap_tests_amended.2.2.1 750 780 780 840 (Or.inl le_rfl),
   overlap_tests_amended.2.2.2.1 (.hm 750) (.hm 780) (.hms 780) (.iso 840)
     750 780 780 840 rfl rfl rfl rfl (Or.inl le_rfl),
   overlap_tests_amended.2.2.2.2.1 (.hm 780) (.hm 840) (.hms 750) (.iso 810)
     rfl rfl rfl rfl,
   overlap_tests_amended.2.2.2.2.2 (.hm 780) (.hm 840) (.hm 750) (.hm 810)
     780 840 750 810 rfl rfl rfl rfl rfl rfl rfl rfl⟩

/-- Claim C9: the conflict check returns no conflict for an event missing
its start date or either time of day, and the engine's overlap test is
`False` whenever one of its four time strings is `None` or empty. -/
theorem timeless_events_never_conflict :
    (∀ (user_id : String) (ev : ExternalEvent) (skip : List String) (s : SyncState),
      ev.start_date = none ∨ ev.start_time = none ∨ ev.end_time = none →
      check_conflict_with_existing user_id ev skip s = none) ∧
    (∀ s1 e1 s2 e2 : TimeStr,
      s1 = .empty ∨ e1 = .empty ∨ s2 = .empty ∨ e2 = .empty →
      time_overlaps s1 e1 s2 e2 = false) := by
  constructor
  · intro user_id ev skip s h
    unfold check_conflict_with_existing
    split
    · rfl
    · rcases h with h | h | h
      · rw [h]
      · cases hd : ev.start_date with
        | none => rfl
        | some d => simp [h]
      · cases hd : ev.start_date with
        | none => rfl
        | some d => simp [h]
  · intro s1 e1 s2 e2 h
    rcases h with rfl | rfl | rfl | rfl <;>
      simp [time_overlaps, TimeStr.falsy]

/-- Witness for `timeless_events_never_conflict` at a concrete timeless
event and a concrete empty time string. -/
theorem timeless_events_never_conflict_witness :
    check_conflict_with_existing "u" { id := "e" } [] {} = none ∧
    time_overlaps .empty (.hm 780) (.hm 600) (.hm 660) = false :=
  ⟨timeless_events_never_conflict.1 "u" { id := "e" } [] {} (Or.inl rfl),
   timeless_events_never_conflict.2 .empty (.hm 780) (.hm 600) (.hm 660) (Or.inl rfl)⟩

/-- Claim C10: `_insert_break_into_blocks` depends only on the
non-consultation blocks of its input (existing consultation blocks are
discarded and recomputed), so two inputs with the same non-consultation
blocks give the same output. -/
theorem insert_break_ignores_consultation_blocks
    (l1 l2 : List TimeBlock) (new_break : TimeBlock) (opens_at closes_at : Nat)
    (h : l1.filter isBreakBlock = l2.filter isBreakBlock) :
    insert_break_into_blocks l1 new_break opens_at closes_at =
      insert_break_into_blocks l2 new_break opens_at closes_at := by
  unfold insert_break_into_blocks
  rw [h]

/-- Witness for `insert_break_ignores_consultation_blocks`: the same break
surrounded by different consultation blocks, at different positions. -/
theorem insert_break_ignores_consultation_blocks_witness :
    insert_break_into_blocks [consultationBlock 540 780, cexBreak1] cexBreak2 540 1140 =
      insert_break_into_blocks [cexBreak1, consultationBlock 540 600,
        consultationBlock 600 1140] cexBreak2 540 1140 :=
  insert_break_ignores_consultation_blocks _ _ _ _ _ (by decide)

/-- Claim C1: the second run of `process_external_events` over the unchanged
feed `bugFeed` appends a second, identical break block to the Monday
template (block count 3 → 4), even though the `SyncedEvent` count stays at
1 — the template mapping path never matches existing breaks by
`external_event_id` before inserting. -/
theorem rerun_duplicates_template_break :
    (bugRun1.2.templates.map fun t => t.time_blocks.length) = [3] ∧
    (bugRun2.2.templates.map fun t => t.time_blocks.length) = [4] ∧
    bugRun1.2.syncedEvents.length = 1 ∧
    bugRun2.2.syncedEvents.length = 1 ∧
    (bugRun2.2.templates.map fun t =>
      (t.time_blocks.filter fun b => b.external_event_id == some "e1").length) = [2] ∧
    bugRun1.1.conflicts = [] ∧ bugRun2.1.conflicts = [] := by
  decide

/-- Claim C2, counterexample: inserting a break 13:30–14:30 into a block
list already holding a break 13:00–14:00 leaves two overlapping
non-consultation blocks and no partition of 09:00–19:00. -/
theorem insert_break_partition_counterexample :
    isPartition 540 1140 (insert_break_into_blocks [cexBreak1] cexBreak2 540 1140) = false ∧
    ¬ ((insert_break_into_blocks [cexBreak1] cexBreak2 540 1140).filter
        isBreakBlock).Pairwise blocksDisjoint := by
  decide

/-- A partition of `[o, c]` implies `o ≤ c`. -/
theorem isPartition_le (o c : Nat) (l : List TimeBlock) (h : isPartition o c l = true) :
    o ≤ c := by
  induction l generalizing o with
  | nil =>
    simp only [isPartition, beq_iff_eq] at h
    omega
  | cons b bs ih =>
    simp only [isPartition, Bool.and_eq_true, beq_iff_eq, decide_eq_true_eq] at h
    obtain ⟨⟨h1, h2⟩, h3⟩ := h
    have := ih b.stop h3
    omega

/-- Every block of a partition of `[o, c]` is non-degenerate and lies within
the interval. -/
theorem isPartition_bounds (o c : Nat) (l : List TimeBlock)
    (h : isPartition o c l = true) :
    ∀ b ∈ l, o ≤ b.start ∧ b.start < b.stop ∧ b.stop ≤ c := by
  induction l generalizing o with
  | nil => intro b hb; cases hb
  | cons b bs ih =>
    simp only [isPartition, Bool.and_eq_true, beq_iff_eq, decide_eq_true_eq] at h
    obtain ⟨⟨h1, h2⟩, h3⟩ := h
    intro x hx
    rcases List.mem_cons.mp hx with rfl | hx
    · exact ⟨by omega, h2, isPartition_le _ _ _ h3⟩
    · have := ih b.stop h3 x hx
      omega

/-- In a partition, every earlier block ends no later than any later block
starts. -/
theorem isPartition_chain (o c : Nat) (l : List TimeBlock)
    (h : isPartition o c l = true) :
    l.Pairwise fun a b => a.stop ≤ b.start := by
  induction l generalizing o with
  | nil => exact List.Pairwise.nil
  | cons b bs ih =>
    simp only [isPartition, Bool.and_eq_true, beq_iff_eq, decide_eq_true_eq] at h
    obtain ⟨⟨h1, h2⟩, h3⟩ := h
    exact List.Pairwise.cons
      (fun x hx => (isPartition_bounds _ _ _ h3 x hx).1) (ih b.stop h3)

/-- The gap-filling walk over a start-sorted, chained break list produces a
partition of `[lastEnd, c]`. -/
theorem fillBlocks_isPartition (c : Nat) (bs : List TimeBlock) :
    ∀ lastEnd : Nat, (∀ b ∈ bs, lastEnd ≤ b.start) →
      (∀ b ∈ bs, b.start < b.stop ∧ b.stop ≤ c) →
      bs.Pairwise (fun a b => a.stop ≤ b.start) → lastEnd ≤ c →
      isPartition lastEnd c (fillBlocks c lastEnd bs) = true := by
  induction bs with
  | nil =>
    intro lastEnd _ _ _ hc
    unfold fillBlocks
    split_ifs with hlt
    · simp [isPartition, consultationBlock, hlt]
    · have : lastEnd = c := by omega
      simp [isPartition, this]
  | cons b bs ih =>
    intro lastEnd h0 h1 hp hc
    have hb0 : lastEnd ≤ b.start := h0 b (List.mem_cons_self _ _)
    have hb1 := h1 b (List.mem_cons_self _ _)
    have hpc := List.pairwise_cons.mp hp
    have ihx := ih b.stop hpc.1 (fun x hx => h1 x (List.mem_cons_of_mem _ hx))
      hpc.2 hb1.2
    unfold fillBlocks
    split_ifs with hlt
    · simp [isPartition, consultationBlock, hlt, hb1.1, ihx]
    · have heq : lastEnd = b.start := by omega
      simp [isPartition, heq, hb1.1, ihx]

/-- Sorting pairwise-disjoint, in-bound breaks and walking them partitions
the working interval. -/
theorem fill_sorted_partition (brs : List TimeBlock) (o c : Nat)
    (hin : ∀ b ∈ brs, o ≤ b.start ∧ b.start < b.stop ∧ b.stop ≤ c)
    (hdisj : brs.Pairwise blocksDisjoint) (hoc : o ≤ c) :
    isPartition o c (fillBlocks c o (List.insertionSort startLE brs)) = true := by
  have hperm := List.perm_insertionSort startLE brs
  have hmem : ∀ b ∈ List.insertionSort startLE brs,
      o ≤ b.start ∧ b.start < b.stop ∧ b.stop ≤ c :=
    fun b hb => hin b (hperm.mem_iff.mp hb)
  have hsorted := List.sorted_insertionSort startLE brs
  have hdisj' : (List.insertionSort startLE brs).Pairwise blocksDisjoint :=
    (List.Perm.pairwise_iff (fun h => h.symm) hperm).mpr hdisj
  have hchain : (List.insertionSort startLE brs).Pairwise fun a b => a.stop ≤ b.start := by
    refine (hsorted.and hdisj').imp_of_mem ?_
    intro a b ha hb hab
    rcases hab.2 with h | h
    · exact h
    · have hb' := hmem b hb
      have h1 : a.start ≤ b.start := hab.1
      omega
  exact fillBlocks_isPartition c _ o (fun b hb => (hmem b hb).1)
    (fun b hb => ⟨(hmem b hb).2.1, (hmem b hb).2.2⟩) hchain hoc

/-- Claim C2, amended: when the non-consultation input blocks and the new
break lie within `[opens_at, closes_at]`, are non-degenerate and pairwise
disjoint, `_insert_break_into_blocks` returns a start-sorted list that
exactly covers `[opens_at, closes_at]` with no gap and no overlap between
consecutive blocks, all blocks pairwise disjoint — in particular no two
non-consultation blocks overlap. -/
theorem insert_break_partition (existing_blocks : List TimeBlock)
    (new_break : TimeBlock) (opens_at closes_at : Nat)
    (hin : ∀ b ∈ existing_blocks.filter isBreakBlock ++ [new_break],
      opens_at ≤ b.start ∧ b.start < b.stop ∧ b.stop ≤ closes_at)
    (hdisj : (existing_blocks.filter isBreakBlock ++ [new_break]).Pairwise blocksDisjoint)
    (hoc : opens_at ≤ closes_at) :
    isPartition opens_at closes_at
      (insert_break_into_blocks existing_blocks new_break opens_at closes_at) = true ∧
    (insert_break_into_blocks existing_blocks new_break opens_at closes_at).Pairwise
      blocksDisjoint ∧
    ((insert_break_into_blocks existing_blocks new_break opens_at closes_at).filter
      isBreakBlock).Pairwise blocksDisjoint ∧
    List.Sorted startLE
      (insert_break_into_blocks existing_blocks new_break opens_at closes_at) := by
  have hpart : isPartition opens_at closes_at
      (insert_break_into_blocks existing_blocks new_break opens_at closes_at) = true :=
    fill_sorted_partition _ opens_at closes_at hin hdisj hoc
  have hchain := isPartition_chain _ _ _ hpart
  have hbounds := isPartition_bounds _ _ _ hpart
  have hpw : (insert_break_into_blocks existing_blocks new_break opens_at
      closes_at).Pairwise blocksDisjoint :=
    hchain.imp fun h => Or.inl h
  refine ⟨hpart, hpw, List.Pairwise.sublist (List.filter_sublist _) hpw, ?_⟩
  refine hchain.imp_of_mem ?_
  intro a b ha hb hab
  have := hbounds a ha
  show a.start ≤ b.start
  omega

/-- Witness for `insert_break_partition`: inserting a 15:00–16:00 break into
the partitioned Monday template blocks. -/
theorem insert_break_partition_witness :
    isPartition 540 1140 (insert_break_into_blocks
      [consultationBlock 540 780, cexBreak1, consultationBlock 840 1140]
      witBreak 540 1140) = true ∧
    (insert_break_into_blocks
      [consultationBlock 540 780, cexBreak1, consultationBlock 840 1140]
      witBreak 540 1140).Pairwise blocksDisjoint ∧
    ((insert_break_into_blocks
      [consultationBlock 540 780, cexBreak1, consultationBlock 840 1140]
      witBreak 540 1140).filter isBreakBlock).Pairwise blocksDisjoint ∧
    List.Sorted startLE (insert_break_into_blocks
      [consultationBlock 540 780, cexBreak1, consultationBlock 840 1140]
      witBreak 540 1140) :=
  insert_break_partition
    [consultationBlock 540 780, cexBreak1, consultationBlock 840 1140]
    witBreak 540 1140 (by decide) (by decide) (by decide)

/-- Claim C5: `RRULE:FREQ=WEEKLY;BYDAY=MO` classifies as a weekly pattern on
Monday and `RRULE:FREQ=DAILY;INTERVAL=8` as an 8-day cadence with no
weekday; in general, on an `RRULE:` rule whose INTERVAL parses,
`frequency_days` becomes INTERVAL for DAILY, 7×INTERVAL for WEEKLY,
30×INTERVAL for MONTHLY and 365×INTERVAL for YEARLY, and for WEEKLY the
weekday is the first `day_map` code matching BYDAY when BYDAY is present and
matches, staying unchanged (null for a fresh pattern) otherwise. -/
theorem analyze_recurrence_pattern_classification :
    analyze_recurrence_pattern ["RRULE:FREQ=WEEKLY;BYDAY=MO".toList] =
      { frequency_days := some 7, day_of_week := some 0, pattern_type := "weekly",
        rule := some "FREQ=WEEKLY;BYDAY=MO".toList } ∧
    analyze_recurrence_pattern ["RRULE:FREQ=DAILY;INTERVAL=8".toList] =
      { frequency_days := some 8, day_of_week := none, pattern_type := "daily",
        rule := some "FREQ=DAILY;INTERVAL=8".toList } ∧
    (∀ (p : RecurrencePattern) (rule : List Char) (n : Nat),
      isPrefixChars "RRULE:".toList rule = true →
      (getComponent (removeAll "RRULE:".toList rule) "FREQ".toList).getD [] =
        "DAILY".toList →
      parseNatDigits ((getComponent (removeAll "RRULE:".toList rule)
        "INTERVAL".toList).getD "1".toList) = some n →
      (apply_rrule p rule).frequency_days = some n) ∧
    (∀ (p : RecurrencePattern) (rule : List Char) (n : Nat),
      isPrefixChars "RRULE:".toList rule = true →
      (getComponent (removeAll "RRULE:".toList rule) "FREQ".toList).getD [] =
        "WEEKLY".toList →
      parseNatDigits ((getComponent (removeAll "RRULE:".toList rule)
        "INTERVAL".toList).getD "1".toList) = some n →
      (apply_rrule p rule).frequency_days = some (7 * n) ∧
      (∀ byday d, getComponent (removeAll "RRULE:".toList rule) "BYDAY".toList =
          some byday → findByday byday = some d →
        (apply_rrule p rule).day_of_week = some d) ∧
      (getComponent (removeAll "RRULE:".toList rule) "BYDAY".toList = none →
        (apply_rrule p rule).day_of_week = p.day_of_week)) ∧
    (∀ (p : RecurrencePattern) (rule : List Char) (n : Nat),
      isPrefixChars "RRULE:".toList rule = true →
      (getComponent (removeAll "RRULE:".toList rule) "FREQ".toList).getD [] =
        "MONTHLY".toList →
      parseNatDigits ((getComponent (removeAll "RRULE:".toList rule)
        "INTERVAL".toList).getD "1".toList) = some n →
      (apply_rrule p rule).frequency_days = some (30 * n)) ∧
    (∀ (p : RecurrencePattern) (rule : List Char) (n : Nat),
      isPrefixChars "RRULE:".toList rule = true →
      (getComponent (removeAll "RRULE:".toList rule) "FREQ".toList).getD [] =
        "YEARLY".toList →
      parseNatDigits ((getComponent (removeAll "RRULE:".toList rule)
        "INTERVAL".toList).getD "1".toList) = some n →
      (apply_rrule p rule).frequency_days = some (365 * n)) := by
  refine ⟨by decide, by decide, ?_, ?_, ?_, ?_⟩
  · intro p rule n hpre hfreq hint
    simp only [apply_rrule, hpre, if_true, hint, hfreq, if_pos rfl]
  · intro p rule n hpre hfreq hint
    have hne : ¬(("WEEKLY" : String).toList = ("DAILY" : String).toList) := by decide
    refine ⟨?_, ?_, ?_⟩
    · simp only [apply_rrule, hpre, if_true, hint, hfreq, if_neg hne, if_pos rfl]
      cases hb : getComponent (removeAll "RRULE:".toList rule) "BYDAY".toList with
      | none => rfl
      | some byday =>
        cases hf : findByday byday with
        | none => simp only [hf]
        | some d => simp only [hf]
    · intro byday d hb hf
      simp only [apply_rrule, hpre, if_true, hint, hfreq, if_neg hne, if_pos rfl, hb, hf]
    · intro hb
      simp only [apply_rrule, hpre, if_true, hint, hfreq, if_neg hne, if_pos rfl, hb]
  · intro p rule n hpre hfreq hint
    have h1 : ¬(("MONTHLY" : String).toList = ("DAILY" : String).toList) := by decide
    have h2 : ¬(("MONTHLY" : String).toList = ("WEEKLY" : String).toList) := by decide
    simp only [apply_rrule, hpre, if_true, hint, hfreq, if_neg h1, if_neg h2, if_pos rfl]
  · intro p rule n hpre hfreq hint
    have h1 : ¬(("YEARLY" : String).toList = ("DAILY" : String).toList) := by decide
    have h2 : ¬(("YEARLY" : String).toList = ("WEEKLY" : String).toList) := by decide
    have h3 : ¬(("YEARLY" : String).toList = ("MONTHLY" : String).toList) := by decide
    simp only [apply_rrule, hpre, if_true, hint, hfreq, if_neg h1, if_neg h2, if_neg h3,
      if_pos rfl]

/-- Witness for `analyze_recurrence_pattern_classification` on concrete
rules for each cadence. -/
theorem analyze_recurrence_pattern_classification_witness :
    (apply_rrule {} "RRULE:FREQ=DAILY;INTERVAL=8".toList).frequency_days = some 8 ∧
    (apply_rrule {} "RRULE:FREQ=WEEKLY;BYDAY=MO".toList).frequency_days = some 7 ∧
    (apply_rrule {} "RRULE:FREQ=WEEKLY;BYDAY=MO".toList).day_of_week = some 0 ∧
    (apply_rrule {} "RRULE:FREQ=WEEKLY".toList).day_of_week = none ∧
    (apply_rrule {} "RRULE:FREQ=MONTHLY;INTERVAL=2".toList).frequency_days = some 60 ∧
    (apply_rrule {} "RRULE:FREQ=YEARLY".toList).frequency_days = some 365 :=
  ⟨analyze_recurrence_pattern_classification.2.2.1 {} _ 8 (by decide) (by decide)
     (by decide),
   (analyze_recurrence_pattern_classification.2.2.2.1 {} _ 1 (by decide) (by decide)
     (by decide)).1,
   (analyze_recurrence_pattern_classification.2.2.2.1 {} _ 1 (by decide) (by decide)
     (by decide)).2.1 "MO".toList 0 (by decide) (by decide),
   (analyze_recurrence_pattern_classification.2.2.2.1 {} _ 1 (by decide) (by decide)
     (by decide)).2.2 (by decide),
   analyze_recurrence_pattern_classification.2.2.2.2.1 {} _ 2 (by decide) (by decide)
     (by decide),
   analyze_recurrence_pattern_classification.2.2.2.2.2 {} _ 1 (by decide) (by decide)
     (by decide)⟩

/-- A rule whose FREQ is unrecognized never changes `frequency_days`. -/
theorem apply_rrule_unrecognized_freq (p : RecurrencePattern) (r : List Char)
    (h : isPrefixChars "RRULE:".toList r = true →
      (getComponent (removeAll "RRULE:".toList r) "FREQ".toList).getD [] ∉
        ([("DAILY" : String).toList, "WEEKLY".toList, "MONTHLY".toList,
          "YEARLY".toList] : List (List Char))) :
    (apply_rrule p r).frequency_days = p.frequency_days := by
  by_cases hpre : isPrefixChars "RRULE:".toList r = true
  · have hfr := h hpre
    simp only [List.mem_cons, List.not_mem_nil, not_or, or_false] at hfr
    obtain ⟨h1, h2, h3, h4⟩ := hfr
    simp only [apply_rrule, hpre, if_true]
    cases hint : parseNatDigits ((getComponent (removeAll "RRULE:".toList r)
        "INTERVAL".toList).getD "1".toList) with
    | none => rfl
    | some iv => simp only [if_neg h1, if_neg h2, if_neg h3, if_neg h4]
  · simp only [Bool.not_eq_true] at hpre
    simp only [apply_rrule, hpre, Bool.false_eq_true, if_false]

/-- Claim C8: a rule list whose `RRULE:` rules all carry an unrecognized
FREQ token yields (without raising) a pattern with null `frequency_days`,
and the mapping engine performs no auto-mapping for a group whose pattern
has null cadence: `_process_recurring_group` returns the empty result and
leaves the store untouched. -/
theorem unrecognized_freq_is_not_auto_mapped :
    (∀ rules : List (List Char),
      (∀ r ∈ rules, isPrefixChars "RRULE:".toList r = true →
        (getComponent (removeAll "RRULE:".toList r) "FREQ".toList).getD [] ∉
          ([("DAILY" : String).toList, "WEEKLY".toList, "MONTHLY".toList,
            "YEARLY".toList] : List (List Char))) →
      (analyze_recurrence_pattern rules).frequency_days = none) ∧
    (∀ (today : Nat) (g : RecurringGroup) (u c p : String) (s : SyncState),
      g.pattern.frequency_days = none →
      process_recurring_group today g u c p s = ({}, s)) := by
  constructor
  · intro rules h
    unfold analyze_recurrence_pattern
    have key : ∀ (rs : List (List Char)) (p : RecurrencePattern),
        (∀ r ∈ rs, isPrefixChars "RRULE:".toList r = true →
          (getComponent (removeAll "RRULE:".toList r) "FREQ".toList).getD [] ∉
            ([("DAILY" : String).toList, "WEEKLY".toList, "MONTHLY".toList,
              "YEARLY".toList] : List (List Char))) →
        p.frequency_days = none → (rs.foldl apply_rrule p).frequency_days = none := by
      intro rs
      induction rs with
      | nil => intro p _ hp; exact hp
      | cons r rs ih =>
        intro p hall hp
        rw [List.foldl_cons]
        refine ih _ (fun x hx => hall x (List.mem_cons_of_mem _ hx)) ?_
        rw [apply_rrule_unrecognized_freq p r (hall r (List.mem_cons_self _ _))]
        exact hp
    exact key rules {} h rfl
  · intro today g u c p s h
    unfold process_recurring_group
    rw [h]

/-- Witness for `unrecognized_freq_is_not_auto_mapped`: a concrete
`FREQ=HOURLY` rule list and a concrete null-cadence group. -/
theorem unrecognized_freq_is_not_auto_mapped_witness :
    (analyze_recurrence_pattern ["RRULE:FREQ=HOURLY".toList]).frequency_days = none ∧
    process_recurring_group 0 { pattern := {} } "u" "c" "google" bugState =
      ({}, bugState) :=
  ⟨unrecognized_freq_is_not_auto_mapped.1 ["RRULE:FREQ=HOURLY".toList] (by decide),
   unrecognized_freq_is_not_auto_mapped.2 0 { pattern := {} } "u" "c" "google"
     bugState rfl⟩

/-- Claim C3, counterexample: on `cexCleanupState`, cleanup deletes the
exception row although it is flagged `existed_before_sync`, and strips the
template's break without recomputing consultation blocks — the remaining
blocks no longer partition the working interval. -/
theorem cleanup_claim_counterexample :
    cexException.existed_before_sync = true ∧
    (cleanup_synced_events "u" "c" cexCleanupState).exceptions = [] ∧
    ((cleanup_synced_events "u" "c" cexCleanupState).templates.map fun t =>
      t.time_blocks) = [[consultationBlock 540 780, consultationBlock 840 1140]] ∧
    isPartition 540 1140 [consultationBlock 540 780, consultationBlock 840 1140] = false := by
  decide

/-- Folding filters over a record list filters once by the conjunction. -/
theorem foldl_filter_all {α β : Type} (l : List α) (rs : List β) (p : β → α → Bool) :
    rs.foldl (fun l r => l.filter (p r)) l = l.filter fun x => rs.all fun r => p r x := by
  induction rs generalizing l with
  | nil => simp
  | cons r rs ih =>
    rw [List.foldl_cons, ih, List.filter_filter]
    refine List.filter_congr fun x _ => ?_
    simp [Bool.and_comm]

/-- The cleanup fold deletes exactly the processed records from the session. -/
theorem foldl_cleanupStep_syncedEvents (rs : List SyncedEvent) (s : SyncState) :
    (rs.foldl cleanupStep s).syncedEvents =
      s.syncedEvents.filter fun x => rs.all fun r => !(x.id == r.id) := by
  rw [← foldl_filter_all]
  induction rs generalizing s with
  | nil => rfl
  | cons r rs ih => rw [List.foldl_cons, List.foldl_cons, ih]; rfl

/-- The exceptions component of the cleanup fold is the fold of the
exception branch alone. -/
theorem foldl_cleanupStep_exceptions (rs : List SyncedEvent) (s : SyncState) :
    (rs.foldl cleanupStep s).exceptions = rs.foldl cleanupStepExc s.exceptions := by
  induction rs generalizing s with
  | nil => rfl
  | cons r rs ih => rw [List.foldl_cons, List.foldl_cons, ih]; rfl

/-- The templates component of the cleanup fold is the fold of the template
branch alone. -/
theorem foldl_cleanupStep_templates (rs : List SyncedEvent) (s : SyncState) :
    (rs.foldl cleanupStep s).templates = rs.foldl cleanupStepTpl s.templates := by
  induction rs generalizing s with
  | nil => rfl
  | cons r rs ih => rw [List.foldl_cons, List.foldl_cons, ih]; rfl

/-- With distinct ids, deleting the first matching row is filtering the id
out. -/
theorem eraseP_eq_filter_of_nodup (l : List HorarioException) (n : Nat)
    (h : (l.map (·.id)).Nodup) :
    (l.eraseP fun e => e.id == n) = l.filter fun e => !(e.id == n) := by
  induction l with
  | nil => rfl
  | cons e l ih =>
    simp only [List.map_cons, List.nodup_cons, List.mem_map] at h
    by_cases he : e.id = n
    · have hp : (e.id == n) = true := by simp [he]
      rw [List.eraseP_cons, hp, cond_true, List.filter_cons, if_neg (by simp [hp])]
      symm
      refine List.filter_eq_self.mpr fun x hx => ?_
      simp only [Bool.not_eq_true']
      refine beq_eq_false_iff_ne.mpr fun hxn => ?_
      exact h.1 ⟨x, hx, by omega⟩
    · have hp : (e.id == n) = false := by simp [he]
      rw [List.eraseP_cons, hp, cond_false, List.filter_cons, if_pos (by simp [hp]), ih h.2]

/-- With distinct ids, one exception-deletion step is a filter. -/
theorem cleanupStepExc_eq_filter (l : List HorarioException) (r : SyncedEvent)
    (h : (l.map (·.id)).Nodup) :
    cleanupStepExc l r = l.filter fun e => !(excRecordMatches r e.id) := by
  unfold cleanupStepExc
  by_cases hr : (r.sync_direction == "external_to_internal" &&
      r.local_event_type == "exception") = true
  · rw [if_pos hr, eraseP_eq_filter_of_nodup l r.local_event_id h]
    refine List.filter_congr fun e _ => ?_
    simp [excRecordMatches, hr]
  · rw [if_neg hr]
    symm
    refine List.filter_eq_self.mpr fun e _ => ?_
    simp only [Bool.not_eq_true] at hr
    simp [excRecordMatches, hr]

/-- With distinct ids, the whole exception side of cleanup is one filter. -/
theorem foldl_cleanupStepExc (rs : List SyncedEvent) (l : List HorarioException)
    (h : (l.map (·.id)).Nodup) :
    rs.foldl cleanupStepExc l =
      l.filter fun e => !(rs.any fun r => excRecordMatches r e.id) := by
  induction rs generalizing l with
  | nil => simp
  | cons r rs ih =>
    have hnd : ((l.filter fun e => !(excRecordMatches r e.id)).map (·.id)).Nodup :=
      List.Nodup.sublist (List.Sublist.map _ (List.filter_sublist _)) h
    rw [List.foldl_cons, cleanupStepExc_eq_filter l r h, ih _ hnd, List.filter_filter]
    refine List.filter_congr fun e _ => ?_
    simp [Bool.and_comm]

/-- With distinct ids, updating the first matching row is a pointwise map. -/
theorem updFirst_eq_map (l : List HorarioTemplate) (n : Nat)
    (f : HorarioTemplate → HorarioTemplate) (h : (l.map (·.id)).Nodup) :
    updFirst (fun t => t.id == n) f l = l.map fun t => if t.id == n then f t else t := by
  induction l with
  | nil => rfl
  | cons t l ih =>
    simp only [List.map_cons, List.nodup_cons, List.mem_map] at h
    unfold updFirst
    by_cases ht : t.id = n
    · have hp : (t.id == n) = true := by simp [ht]
      rw [if_pos hp, List.map_cons, if_pos hp]
      have : ∀ x ∈ l, (if x.id == n then f x else x) = x := by
        intro x hx
        refine if_neg ?_
        simp only [beq_iff_eq]
        intro hxn
        exact h.1 ⟨x, hx, by omega⟩
      rw [List.map_congr_left this]
      simp
    · have hp : (t.id == n) = false := by simp [ht]
      rw [if_neg (by simp [hp]), List.map_cons, if_neg (by simp [hp]), ih h.2]

/-- Stripping preserves the template's id. -/
theorem stripBlocks_id (r : SyncedEvent) (t : HorarioTemplate) :
    (stripBlocks r t).id = t.id := rfl

/-- With distinct ids, one template-stripping step is a pointwise map. -/
theorem cleanupStepTpl_eq_map (l : List HorarioTemplate) (r : SyncedEvent)
    (h : (l.map (·.id)).Nodup) :
    cleanupStepTpl l r =
      l.map fun t => if tplRecordMatches r t.id then stripBlocks r t else t := by
  unfold cleanupStepTpl
  by_cases hr : (r.sync_direction == "external_to_internal" &&
      r.local_event_type == "template") = true
  · rw [if_pos hr, updFirst_eq_map l r.local_event_id _ h]
    refine List.map_congr_left fun t _ => ?_
    simp [tplRecordMatches, hr]
  · rw [if_neg hr]
    symm
    have : ∀ t ∈ l, (if tplRecordMatches r t.id then stripBlocks r t else t) = t := by
      intro t _
      refine if_neg ?_
      simp only [Bool.not_eq_true] at hr
      simp [tplRecordMatches, hr]
    rw [List.map_congr_left this]
    simp

/-- The pointwise steps preserve the id column. -/
theorem cleanupStepTpl_map_ids (l : List HorarioTemplate) (r : SyncedEvent) :
    ((l.map fun t => if tplRecordMatches r t.id then stripBlocks r t else t).map
      (·.id)) = l.map (·.id) := by
  rw [List.map_map]
  refine List.map_congr_left fun t _ => ?_
  by_cases hc : tplRecordMatches r t.id = true
  · simp [hc, stripBlocks_id]
  · simp [Bool.not_eq_true] at hc
    simp [hc]

/-- With distinct ids, the whole template side of cleanup maps each template
through its own fold of stripping steps. -/
theorem foldl_cleanupStepTpl (rs : List SyncedEvent) (l : List HorarioTemplate)
    (h : (l.map (·.id)).Nodup) :
    rs.foldl cleanupStepTpl l =
      l.map fun t => rs.foldl
        (fun t r => if tplRecordMatches r t.id then stripBlocks r t else t) t := by
  induction rs generalizing l with
  | nil => simp
  | cons r rs ih =>
    have hnd : ((l.map fun t =>
        if tplRecordMatches r t.id then stripBlocks r t else t).map (·.id)).Nodup := by
      rw [cleanupStepTpl_map_ids]; exact h
    rw [List.foldl_cons, cleanupStepTpl_eq_map l r h, ih _ hnd, List.map_map]
    rfl

/-- A template's fold of stripping steps is one filter over its blocks. -/
theorem template_fold_filter (rs : List SyncedEvent) (t : HorarioTemplate) :
    rs.foldl (fun t r => if tplRecordMatches r t.id then stripBlocks r t else t) t =
      { t with time_blocks := t.time_blocks.filter fun b =>
          !(rs.any fun r =>
            tplRecordMatches r t.id && b.external_event_id == some r.external_event_id) } := by
  induction rs generalizing t with
  | nil => simp
  | cons r rs ih =>
    rw [List.foldl_cons]
    by_cases hc : tplRecordMatches r t.id = true
    · rw [if_pos hc, ih (stripBlocks r t)]
      show ({ t with time_blocks := _ } : HorarioTemplate) = { t with time_blocks := _ }
      rw [HorarioTemplate.mk.injEq]
      refine ⟨rfl, rfl, rfl, rfl, rfl, rfl, ?_, rfl⟩
      show (t.time_blocks.filter _).filter _ = _
      rw [List.filter_filter]
      refine List.filter_congr fun b _ => ?_
      simp [hc, stripBlocks_id, Bool.and_comm]
    · rw [if_neg hc, ih t]
      simp only [Bool.not_eq_true] at hc
      rw [HorarioTemplate.mk.injEq]
      refine ⟨rfl, rfl, rfl, rfl, rfl, rfl, ?_, rfl⟩
      refine List.filter_congr fun b _ => ?_
      simp [hc]

/-- Claim C3, amended: on its success path (with distinct row ids, as the
database guarantees), `cleanup_synced_events` (a) deletes exactly this user's
and connection's sync records, (b) deletes exactly the exception rows
referenced by a relevant `external_to_internal` record of local type
`exception` — even those flagged `existed_before_sync` — leaving all other
exceptions unchanged, and (c) replaces every template's block list by the
same list with the breaks tagged by relevant `template` records filtered
out, with no recomputation of consultation blocks; blocks without an
`external_event_id` (in particular pre-existing breaks) always survive. -/
theorem cleanup_synced_events_characterization (u c : String) (s : SyncState)
    (hexc : (s.exceptions.map (·.id)).Nodup)
    (htpl : (s.templates.map (·.id)).Nodup)
    (hrec : (s.syncedEvents.map (·.id)).Nodup) :
    (cleanup_synced_events u c s).syncedEvents =
      s.syncedEvents.filter (fun r => !(relevantRecord u c r)) ∧
    (cleanup_synced_events u c s).exceptions =
      s.exceptions.filter (fun e => !(cleanupRemovesExc u c s e.id)) ∧
    (cleanup_synced_events u c s).templates =
      s.templates.map (fun t =>
        { t with time_blocks :=
            t.time_blocks.filter fun b => !(cleanupStripsBlock u c s t.id b) }) ∧
    (∀ r ∈ (cleanup_synced_events u c s).syncedEvents,
      ¬(r.user_id = u ∧ r.connection_id = some c)) ∧
    (∀ e ∈ s.exceptions, cleanupRemovesExc u c s e.id = false →
      e ∈ (cleanup_synced_events u c s).exceptions) ∧
    (∀ e ∈ (cleanup_synced_events u c s).exceptions,
      cleanupRemovesExc u c s e.id = false) ∧
    (∀ t ∈ s.templates, ∀ b ∈ t.time_blocks, b.external_event_id = none →
      ∃ t' ∈ (cleanup_synced_events u c s).templates,
        t'.id = t.id ∧ b ∈ t'.time_blocks) := by
  have h1 : (cleanup_synced_events u c s).syncedEvents =
      s.syncedEvents.filter (fun r => !(relevantRecord u c r)) := by
    have hstep := foldl_cleanupStep_syncedEvents
      (s.syncedEvents.filter (relevantRecord u c)) s
    refine hstep.trans (List.filter_congr fun x hx => ?_)
    by_cases hrel : relevantRecord u c x = true
    · rw [hrel, Bool.not_true, List.all_eq_false]
      exact ⟨x, List.mem_filter.mpr ⟨hx, hrel⟩, by simp⟩
    · simp only [Bool.not_eq_true] at hrel
      rw [hrel, Bool.not_false, List.all_eq_true]
      intro r hr
      simp only [Bool.not_eq_true']
      refine beq_eq_false_iff_ne.mpr fun hid => ?_
      have hr' := List.mem_filter.mp hr
      have := List.inj_on_of_nodup_map hrec hx hr'.1 hid
      rw [this] at hrel
      rw [hrel] at hr'
      exact Bool.false_ne_true hr'.2
  have h2 : (cleanup_synced_events u c s).exceptions =
      s.exceptions.filter (fun e => !(cleanupRemovesExc u c s e.id)) := by
    have ha := foldl_cleanupStep_exceptions
      (s.syncedEvents.filter (relevantRecord u c)) s
    have hb := foldl_cleanupStepExc
      (s.syncedEvents.filter (relevantRecord u c)) s.exceptions hexc
    exact ha.trans hb
  have h3 : (cleanup_synced_events u c s).templates =
      s.templates.map (fun t =>
        { t with time_blocks :=
            t.time_blocks.filter fun b => !(cleanupStripsBlock u c s t.id b) }) := by
    have ha := foldl_cleanupStep_templates
      (s.syncedEvents.filter (relevantRecord u c)) s
    have hb := foldl_cleanupStepTpl
      (s.syncedEvents.filter (relevantRecord u c)) s.templates htpl
    refine (ha.trans hb).trans (List.map_congr_left fun t _ => ?_)
    exact template_fold_filter (s.syncedEvents.filter (relevantRecord u c)) t
  refine ⟨h1, h2, h3, ?_, ?_, ?_, ?_⟩
  · intro r hr
    rw [h1] at hr
    have := (List.mem_filter.mp hr).2
    simp only [Bool.not_eq_true'] at this
    simp only [relevantRecord, Bool.and_eq_false_iff, beq_eq_false_iff_ne] at this
    rintro ⟨hu, hc⟩
    rcases this with h | h
    · exact h hu
    · exact h hc
  · intro e he hrem
    rw [h2]
    exact List.mem_filter.mpr ⟨he, by rw [hrem]; rfl⟩
  · intro e he
    rw [h2] at he
    have := (List.mem_filter.mp he).2
    simpa using this
  · intro t ht b hb hnone
    rw [h3]
    refine ⟨{ t with time_blocks :=
                t.time_blocks.filter fun b => !(cleanupStripsBlock u c s t.id b) },
      List.mem_map_of_mem _ ht, rfl, ?_⟩
    refine List.mem_filter.mpr ⟨hb, ?_⟩
    simp only [Bool.not_eq_true']
    unfold cleanupStripsBlock
    rw [List.any_eq_false]
    intro r _
    rw [hnone]
    rw [show ((none : Option String) == some r.external_event_id) = false from rfl,
      Bool.and_false]
    exact Bool.false_ne_true

/-- Witness for `cleanup_synced_events_characterization` on the concrete
disconnect state `cexCleanupState`. -/
theorem cleanup_synced_events_characterization_witness :
    (cleanup_synced_events "u" "c" cexCleanupState).syncedEvents =
      cexCleanupState.syncedEvents.filter (fun r => !(relevantRecord "u" "c" r)) ∧
    (cleanup_synced_events "u" "c" cexCleanupState).exceptions =
      cexCleanupState.exceptions.filter
        (fun e => !(cleanupRemovesExc "u" "c" cexCleanupState e.id)) ∧
    (cleanup_synced_events "u" "c" cexCleanupState).templates =
      cexCleanupState.templates.map (fun t =>
        { t with time_blocks :=
            t.time_blocks.filter fun b =>
              !(cleanupStripsBlock "u" "c" cexCleanupState t.id b) }) :=
  have h := cleanup_synced_events_characterization "u" "c" cexCleanupState
    (by decide) (by decide) (by decide)
  ⟨h.1, h.2.1, h.2.2.1⟩

/-- The sync-record upsert touches neither templates nor exceptions. -/
theorem create_synced_event_record_projections (u c eid : String) (lid : Nat)
    (lt dir : String) (rg : Option String) (s : SyncState) :
    (create_synced_event_record u c eid lid lt dir rg s).exceptions = s.exceptions ∧
    (create_synced_event_record u c eid lid lt dir rg s).templates = s.templates := by
  constructor <;> simp only [create_synced_event_record] <;>
    (split <;> first | rfl | (split <;> rfl))

/-- An element not matched by the predicate survives `updFirst` unchanged. -/
theorem updFirst_mem {α : Type} (p : α → Bool) (f : α → α) (l : List α) (x : α)
    (hx : x ∈ l) (hpx : p x = false) : x ∈ updFirst p f l := by
  induction l with
  | nil => cases hx
  | cons y l ih =>
    unfold updFirst
    rcases List.mem_cons.mp hx with rfl | hx'
    · rw [if_neg (by simp [hpx])]
      exact List.mem_cons_self _ _
    · by_cases hy : p y = true
      · rw [if_pos hy]
        exact List.mem_cons_of_mem _ hx'
      · rw [if_neg hy]
        exact List.mem_cons_of_mem _ (ih hx')

/-- One non-weekly step leaves the templates alone and either leaves the
exceptions alone or appends one freshly synced exception for a date inside
the 2-year horizon that had no exception for this user yet. -/
theorem sync_non_weekly_step_cases (today : Nat) (g : RecurringGroup)
    (u c p : String) (res : GroupResult) (st : SyncState) (inst : ExternalEvent) :
    (sync_non_weekly_step today g u c p (res, st) inst).2.templates = st.templates ∧
    ((sync_non_weekly_step today g u c p (res, st) inst).2.exceptions = st.exceptions ∨
      ∃ exc : HorarioException,
        (sync_non_weekly_step today g u c p (res, st) inst).2.exceptions =
          st.exceptions ++ [exc] ∧
        today ≤ exc.date ∧ exc.date ≤ today + 730 ∧ exc.is_synced = true ∧
        exc.sync_source = some p ∧
        ∀ e0 ∈ st.exceptions, ¬(e0.user_id = u ∧ e0.date = exc.date)) := by
  unfold sync_non_weekly_step
  cases hsd : inst.start_date with
  | none => exact ⟨rfl, Or.inl rfl⟩
  | some event_date =>
    dsimp only
    split_ifs with hrange
    · exact ⟨rfl, Or.inl rfl⟩
    · cases hfind : st.exceptions.find? fun e =>
          e.user_id == u && e.date == event_date with
      | some existing => exact ⟨rfl, Or.inl rfl⟩
      | none =>
        dsimp only
        cases htpl0 : st.templates.find? fun t =>
            t.user_id == u && t.day_of_week == event_date % 7 with
        | none => exact ⟨rfl, Or.inl rfl⟩
        | some template =>
          dsimp only
          split_ifs with hact
          · cases hst : inst.start_time with
            | none => exact ⟨rfl, Or.inl rfl⟩
            | some stt =>
              cases het : inst.end_time with
              | none => exact ⟨rfl, Or.inl rfl⟩
              | some ett =>
                dsimp only
                constructor
                · exact (create_synced_event_record_projections _ _ _ _ _ _ _ _).2
                · refine Or.inr
                    ⟨{ id := st.nextId, user_id := u, date := event_date,
                       is_working_day := true,
                       opens_at := some template.opens_at,
                       closes_at := some template.closes_at,
                       time_blocks := insert_break_into_blocks template.time_blocks
                         { start := stt, stop := ett, type := "break",
                           external_event_id := some inst.id,
                           recurring_group_id := g.group_id }
                         template.opens_at template.closes_at,
                       reason := some ("Evento recurrente: " ++ inst.summary.getD "Sin título"),
                       sync_source := some p,
                       external_calendar_id := some inst.id,
                       is_synced := true,
                       sync_connection_id := some c }, ?_, ?_, ?_, rfl, rfl, ?_⟩
                  · exact (create_synced_event_record_projections _ _ _ _ _ _ _ _).1
                  · simp only [Bool.or_eq_true, decide_eq_true_eq, not_or, not_lt] at hrange
                    show today ≤ event_date
                    exact hrange.1
                  · simp only [Bool.or_eq_true, decide_eq_true_eq, not_or, not_lt] at hrange
                    show event_date ≤ today + 730
                    omega
                  · rintro e0 he0 ⟨hu0, hd0⟩
                    have := List.find?_eq_none.mp hfind e0 he0
                    simp only [Bool.and_eq_true, beq_iff_eq, not_and] at this
                    exact this hu0 hd0
          · exact ⟨rfl, Or.inl rfl⟩

/-- Folding the non-weekly steps preserves the templates, keeps every
pre-existing exception, and only adds freshly synced exceptions within the
horizon for dates this user had no exception for. -/
theorem sync_non_weekly_fold_invariant (today : Nat) (g : RecurringGroup)
    (u c p : String) (insts : List ExternalEvent) :
    ∀ acc : GroupResult × SyncState,
      (insts.foldl (sync_non_weekly_step today g u c p) acc).2.templates =
        acc.2.templates ∧
      (∀ e ∈ acc.2.exceptions,
        e ∈ (insts.foldl (sync_non_weekly_step today g u c p) acc).2.exceptions) ∧
      (∀ e ∈ (insts.foldl (sync_non_weekly_step today g u c p) acc).2.exceptions,
        e ∈ acc.2.exceptions ∨
          (today ≤ e.date ∧ e.date ≤ today + 730 ∧ e.is_synced = true ∧
            e.sync_source = some p ∧
            ∀ e0 ∈ acc.2.exceptions, ¬(e0.user_id = u ∧ e0.date = e.date))) := by
  induction insts with
  | nil => exact fun acc => ⟨rfl, fun e he => he, fun e he => Or.inl he⟩
  | cons inst insts ih =>
    intro acc
    obtain ⟨res, st⟩ := acc
    have hstep := sync_non_weekly_step_cases today g u c p res st inst
    have ih1 := ih (sync_non_weekly_step today g u c p (res, st) inst)
    rw [List.foldl_cons]
    refine ⟨?_, ?_, ?_⟩
    · rw [ih1.1, hstep.1]
    · intro e he
      refine ih1.2.1 e ?_
      rcases hstep.2 with h | ⟨exc, heq, _⟩
      · rw [h]; exact he
      · rw [heq]; exact List.mem_append_left _ he
    · intro e he
      rcases ih1.2.2 e he with h1 | h1
      · rcases hstep.2 with h | ⟨exc, heq, hd1, hd2, hs, hsrc, hnone⟩
        · exact Or.inl (h ▸ h1)
        · rw [heq] at h1
          rcases List.mem_append.mp h1 with h2 | h2
          · exact Or.inl h2
          · have he2 : e = exc := List.mem_singleton.mp h2
            subst he2
            exact Or.inr ⟨hd1, hd2, hs, hsrc, hnone⟩
      · refine Or.inr ⟨h1.1, h1.2.1, h1.2.2.1, h1.2.2.2.1, fun e0 he0 =>
          h1.2.2.2.2 e0 ?_⟩
        rcases hstep.2 with h | ⟨exc, heq, _⟩
        · rw [h]; exact he0
        · rw [heq]; exact List.mem_append_left _ he0

/-- Claim C4: a recurring group with a positive cadence that is a multiple
of 7 days (including exactly 7) is dispatched to the weekly template path —
which reads only the group's first instance and touches no exceptions and no
template of another weekday — while a non-multiple-of-7 cadence is
dispatched to the exception path, which touches no template, keeps every
existing exception untouched (only conflict detection runs against it) and
creates new synced exceptions only for horizon dates with no exception for
the user yet. -/
theorem recurring_group_dispatch :
    (∀ (today : Nat) (g : RecurringGroup) (u c p : String) (s : SyncState) (f : Nat),
      g.pattern.frequency_days = some f → f ≠ 0 → f % 7 = 0 →
      process_recurring_group today g u c p s =
        sync_weekly_recurring_to_template g u c s) ∧
    (∀ (today : Nat) (g : RecurringGroup) (u c p : String) (s : SyncState) (f : Nat),
      g.pattern.frequency_days = some f → f % 7 ≠ 0 →
      process_recurring_group today g u c p s =
        sync_non_weekly_recurring_to_exceptions today g u c p s) ∧
    (∀ (g : RecurringGroup) (u c : String) (s : SyncState) (i : ExternalEvent)
      (rest : List ExternalEvent), g.instances = i :: rest →
      sync_weekly_recurring_to_template g u c s =
        sync_weekly_recurring_to_template { g with instances := [i] } u c s) ∧
    (∀ (g : RecurringGroup) (u c : String) (s : SyncState) (d : Nat),
      g.pattern.day_of_week = some d →
      (sync_weekly_recurring_to_template g u c s).2.exceptions = s.exceptions ∧
      ((s.templates.map (·.id)).Nodup → (∀ t ∈ s.templates, t.id ≠ s.nextId) →
        ∀ t ∈ s.templates, t.day_of_week ≠ d →
        t ∈ (sync_weekly_recurring_to_template g u c s).2.templates)) ∧
    (∀ (today : Nat) (g : RecurringGroup) (u c p : String) (s : SyncState),
      (sync_non_weekly_recurring_to_exceptions today g u c p s).2.templates =
        s.templates ∧
      (∀ e ∈ s.exceptions,
        e ∈ (sync_non_weekly_recurring_to_exceptions today g u c p s).2.exceptions) ∧
      (∀ e ∈ (sync_non_weekly_recurring_to_exceptions today g u c p s).2.exceptions,
        e ∈ s.exceptions ∨
          (today ≤ e.date ∧ e.date ≤ today + 730 ∧ e.is_synced = true ∧
            e.sync_source = some p ∧
            ∀ e0 ∈ s.exceptions, ¬(e0.user_id = u ∧ e0.date = e.date)))) := by
  refine ⟨?_, ?_, ?_, ?_, ?_⟩
  · intro today g u c p s f hf h0 hmod
    obtain ⟨k, rfl⟩ := Nat.exists_eq_succ_of_ne_zero h0
    unfold process_recurring_group
    rw [hf]
    show (if (k + 1 == 7 : Bool) then sync_weekly_recurring_to_template g u c s
      else if ((k + 1) % 7 != 0 : Bool) then
        sync_non_weekly_recurring_to_exceptions today g u c p s
      else sync_weekly_recurring_to_template g u c s) = _
    have hmod' : (k + 1) % 7 = 0 := by omega
    by_cases h7 : k + 1 = 7
    · rw [if_pos (by simp [h7])]
    · rw [if_neg (by simp; omega), if_neg (by simp [hmod'])]
  · intro today g u c p s f hf hmod
    have h0 : f ≠ 0 := by intro h; rw [h] at hmod; exact hmod rfl
    obtain ⟨k, rfl⟩ := Nat.exists_eq_succ_of_ne_zero h0
    have h7 : k + 1 ≠ 7 := fun h => hmod (by omega)
    have hmod' : (k + 1) % 7 ≠ 0 := fun h => hmod (by omega)
    unfold process_recurring_group
    rw [hf]
    show (if (k + 1 == 7 : Bool) then sync_weekly_recurring_to_template g u c s
      else if ((k + 1) % 7 != 0 : Bool) then
        sync_non_weekly_recurring_to_exceptions today g u c p s
      else sync_weekly_recurring_to_template g u c s) = _
    rw [if_neg (by simp; omega), if_pos (by simpa using hmod')]
  · intro g u c s i rest hinst
    unfold sync_weekly_recurring_to_template
    rw [hinst]
    cases hdow : g.pattern.day_of_week <;> rfl
  · intro g u c s d hdow
    cases hinst : g.instances with
    | nil =>
      unfold sync_weekly_recurring_to_template
      rw [hinst]
      exact ⟨rfl, fun _ _ t ht _ => ht⟩
    | cons first rest =>
      unfold sync_weekly_recurring_to_template
      rw [hinst, hdow]
      dsimp only
      cases hfound : s.templates.find? fun t =>
          t.user_id == u && t.day_of_week == d with
      | some template =>
        dsimp only
        have htmem : template ∈ s.templates := List.mem_of_find?_eq_some hfound
        have htday : template.day_of_week = d := by
          have := List.find?_some hfound
          simp only [Bool.and_eq_true, beq_iff_eq] at this
          exact this.2
        cases hconf : (template.time_blocks.filter isBreakBlock).find? fun eb =>
            !(eb.external_event_id == some first.id) && eventOverlapsBlock first eb with
        | some eb => exact ⟨rfl, fun _ _ t ht _ => ht⟩
        | none =>
          dsimp only
          split_ifs with hact
          · cases hst : first.start_time with
            | none =>
              cases het : first.end_time with
              | none => exact ⟨rfl, fun _ _ t ht _ => ht⟩
              | some ett => exact ⟨rfl, fun _ _ t ht _ => ht⟩
            | some stt =>
              cases het : first.end_time with
              | none => exact ⟨rfl, fun _ _ t ht _ => ht⟩
              | some ett =>
                dsimp only
                constructor
                · exact (create_synced_event_record_projections _ _ _ _ _ _ _ _).1
                · intro hnd _ t ht htd
                  show t ∈ (create_synced_event_record u c first.id template.id
                    "template" "external_to_internal" g.group_id _).templates
                  rw [(create_synced_event_record_projections u c first.id template.id
                    "template" "external_to_internal" g.group_id _).2]
                  refine updFirst_mem _ _ _ t ht ?_
                  simp only [beq_eq_false_iff_ne, ne_eq]
                  intro hid
                  have := List.inj_on_of_nodup_map hnd ht htmem hid
                  rw [this] at htd
                  exact htd htday
          · exact ⟨rfl, fun _ _ t ht _ => ht⟩
      | none =>
        dsimp only
        cases hst : first.start_time with
        | none =>
          cases het : first.end_time with
          | none => exact ⟨rfl, fun _ _ t ht _ => List.mem_append_left _ ht⟩
          | some ett => exact ⟨rfl, fun _ _ t ht _ => List.mem_append_left _ ht⟩
        | some stt =>
          cases het : first.end_time with
          | none => exact ⟨rfl, fun _ _ t ht _ => List.mem_append_left _ ht⟩
          | some ett =>
            dsimp only
            constructor
            · exact (create_synced_event_record_projections _ _ _ _ _ _ _ _).1
            · intro hnd hfresh t ht htd
              show t ∈ (create_synced_event_record u c first.id s.nextId
                "template" "external_to_internal" g.group_id _).templates
              rw [(create_synced_event_record_projections u c first.id s.nextId
                "template" "external_to_internal" g.group_id _).2]
              refine updFirst_mem _ _ _ t (List.mem_append_left _ ht) ?_
              simp only [beq_eq_false_iff_ne, ne_eq]
              exact hfresh t ht
  · intro today g u c p s
    exact sync_non_weekly_fold_invariant today g u c p g.instances ({}, s)

/-- Witness for `recurring_group_dispatch` on the weekly group `bugGroup`
and the 8-day group `witGroupNW` over the Monday-template store. -/
theorem recurring_group_dispatch_witness :
    process_recurring_group 0 bugGroup "u" "c" "google" bugState =
      sync_weekly_recurring_to_template bugGroup "u" "c" bugState ∧
    process_recurring_group 0 witGroupNW "u" "c" "google" bugState =
      sync_non_weekly_recurring_to_exceptions 0 witGroupNW "u" "c" "google" bugState ∧
    sync_weekly_recurring_to_template bugGroup "u" "c" bugState =
      sync_weekly_recurring_to_template
        { bugGroup with instances :=
            [{ id := "e1", start_date := some 0, start_time := some 780,
               end_time := some 840, is_recurring := true }] }
        "u" "c" bugState ∧
    (sync_weekly_recurring_to_template bugGroup "u" "c" bugState).2.exceptions =
      bugState.exceptions ∧
    (∀ t ∈ bugState.templates, t.day_of_week ≠ 0 →
      t ∈ (sync_weekly_recurring_to_template bugGroup "u" "c" bugState).2.templates) ∧
    (∀ e ∈ bugState.exceptions,
      e ∈ (sync_non_weekly_recurring_to_exceptions 0 witGroupNW "u" "c" "google"
        bugState).2.exceptions) :=
  ⟨recurring_group_dispatch.1 0 bugGroup "u" "c" "google" bugState 7 rfl
     (by decide) (by decide),
   recurring_group_dispatch.2.1 0 witGroupNW "u" "c" "google" bugState 8 rfl (by decide),
   recurring_group_dispatch.2.2.1 bugGroup "u" "c" bugState _ _ rfl,
   (recurring_group_dispatch.2.2.2.1 bugGroup "u" "c" bugState 0 rfl).1,
   fun t ht htd => (recurring_group_dispatch.2.2.2.1 bugGroup "u" "c" bugState 0 rfl).2
     (by decide) (by decide) t ht htd,
   (recurring_group_dispatch.2.2.2.2 0 witGroupNW "u" "c" "google" bugState).2.1⟩

end ScheduleSync
